import Mathlib

/-!
Shallow embedding of the Patient Appointment Scheduling System
(`Scheduling_System/database.py`, `Scheduling_System/scheduler.py`,
`Scheduling_System/models.py`) in Lean 4, together with theorems settling
the frozen claims about the program.

Modelling conventions:
* Python `datetime` objects are the `DateTime` structure below (year, month,
  day, hour, minute, second); `datetime.now()` microseconds are below the
  granularity of every comparison made by the program, so seconds suffice.
* The SQLite database is the `DB` structure: three tables as Lean lists in
  rowid (insertion) order plus the AUTOINCREMENT counters.  The TEXT column
  `appointment_datetime` is modelled as the stored string itself; writing
  goes through `fmtISO` (the `strftime(ISO_FMT)` of the code) and reading
  back through `parseISO` (the `strptime(ISO_FMT)` of the code).
* Python exceptions become the `PyErr` inductive; each operation returns an
  `Except PyErr` result paired with the (possibly mutated) database, since a
  raised exception does not roll back earlier committed statements.
* A `fault : Bool` argument models the underlying SQLite engine failing
  (e.g. `sqlite3.OperationalError` from `conn.execute`): when it is `true`
  every database-layer call raises a raw sqlite error, which is translated
  by the scheduler only where the Python code has a matching `except`.
-/

namespace SchedSys

/-- Python `datetime.datetime` at second precision. -/
structure DateTime where
  year : Nat
  month : Nat
  day : Nat
  hour : Nat
  minute : Nat
  second : Nat
deriving DecidableEq, Repr

/-- Python `dt1 <= dt2`: lexicographic comparison of the components. -/
def DateTime.le (a b : DateTime) : Bool :=
  decide (a.year < b.year) || (a.year == b.year &&
    (decide (a.month < b.month) || (a.month == b.month &&
      (decide (a.day < b.day) || (a.day == b.day &&
        (decide (a.hour < b.hour) || (a.hour == b.hour &&
          (decide (a.minute < b.minute) || (a.minute == b.minute &&
            decide (a.second ≤ b.second))))))))))

/-- Python's Gregorian leap-year rule (`calendar.isleap`). -/
def isLeap (y : Nat) : Bool := y % 4 == 0 && (y % 100 != 0 || y % 400 == 0)

/-- Number of days in a month, as enforced by the `datetime.date` constructor. -/
def daysInMonth (y m : Nat) : Nat :=
  if m = 2 then (if isLeap y then 29 else 28)
  else if m = 4 ∨ m = 6 ∨ m = 9 ∨ m = 11 then 30
  else 31

/-- Range constraints satisfied by every `datetime` value the Python runtime
can construct (`MINYEAR = 1`, `MAXYEAR = 9999`, calendar-valid day, etc.). -/
def Bounded (dt : DateTime) : Prop :=
  1 ≤ dt.year ∧ dt.year ≤ 9999 ∧ 1 ≤ dt.month ∧ dt.month ≤ 12 ∧
  1 ≤ dt.day ∧ dt.day ≤ daysInMonth dt.year dt.month ∧
  dt.hour ≤ 23 ∧ dt.minute ≤ 59 ∧ dt.second ≤ 59

instance (dt : DateTime) : Decidable (Bounded dt) := by
  unfold Bounded; infer_instance

/-- Decimal digit character; `digitChar n` is the ASCII digit of `n % 10`,
which is how `strftime`'s zero padding produces each character. -/
def digitChar (n : Nat) : Char :=
  ⟨⟨⟨⟨48 + n % 10, by omega⟩⟩⟩, Or.inl (by show 48 + n % 10 < 55296; omega)⟩

/-- Test for an ASCII decimal digit, as matched by `strptime`'s `\d`. -/
def isDig (c : Char) : Bool := 48 ≤ c.toNat && c.toNat ≤ 57

/-- Numeric value of an ASCII digit character. -/
def digitVal (c : Char) : Nat := c.toNat - 48

/-- Two-digit zero-padded field of `strftime` (`%m`, `%d`, `%H`, `%M`, `%S`). -/
def pad2 (n : Nat) : List Char := [digitChar (n / 10 % 10), digitChar (n % 10)]

/-- Four-digit zero-padded field of `strftime` (`%Y`). -/
def pad4 (n : Nat) : List Char :=
  [digitChar (n / 1000 % 10), digitChar (n / 100 % 10),
   digitChar (n / 10 % 10), digitChar (n % 10)]

/-- The code's `ISO_FMT = "%Y-%m-%dT%H:%M:%S"` rendering of a datetime
(`appointment_dt.strftime(ISO_FMT)` in `database.py`). -/
def fmtISO (dt : DateTime) : String :=
  ⟨pad4 dt.year ++ '-' :: pad2 dt.month ++ '-' :: pad2 dt.day ++
   'T' :: pad2 dt.hour ++ ':' :: pad2 dt.minute ++ ':' :: pad2 dt.second⟩

/-- Reading a stored TEXT value back with
`datetime.strptime(text, ISO_FMT)` (`database.py`, `get_appointments`):
fixed-width fields of the canonical format, with the range validation the
`datetime` constructor performs.  Returns `none` where Python raises
`ValueError`. -/
def parseISO (s : String) : Option DateTime :=
  match s.data with
  | [y1, y2, y3, y4, c1, m1, m2, c2, d1, d2, c3, h1, h2, c4, n1, n2, c5, s1, s2] =>
    if isDig y1 && isDig y2 && isDig y3 && isDig y4 &&
       c1 == '-' && isDig m1 && isDig m2 && c2 == '-' && isDig d1 && isDig d2 &&
       c3 == 'T' && isDig h1 && isDig h2 && c4 == ':' && isDig n1 && isDig n2 &&
       c5 == ':' && isDig s1 && isDig s2 then
      let y := digitVal y1 * 1000 + digitVal y2 * 100 + digitVal y3 * 10 + digitVal y4
      let mo := digitVal m1 * 10 + digitVal m2
      let d := digitVal d1 * 10 + digitVal d2
      let h := digitVal h1 * 10 + digitVal h2
      let mi := digitVal n1 * 10 + digitVal n2
      let se := digitVal s1 * 10 + digitVal s2
      if 1 ≤ y && 1 ≤ mo && mo ≤ 12 && 1 ≤ d && d ≤ daysInMonth y mo &&
         h ≤ 23 && mi ≤ 59 && se ≤ 59 then
        some ⟨y, mo, d, h, mi, se⟩
      else none
    else none
  | _ => none

/-- Python `str.strip()` whitespace test (ASCII part: space, `\t`, `\n`,
`\v`, `\f`, `\r`). -/
def isPySpace (c : Char) : Bool := c.toNat == 32 || (9 ≤ c.toNat && c.toNat ≤ 13)

/-- Python `str.strip()`. -/
def pyStrip (s : String) : String :=
  ⟨((s.data.dropWhile isPySpace).reverse.dropWhile isPySpace).reverse⟩

/-- Greedy read of one or two ASCII digits, as `strptime`'s `%m`, `%d`,
`%H`, `%M` match a one- or two-digit number (every following format
character here is a non-digit literal or the end of input, so greedy
matching coincides with Python's regex). -/
def readNum2 : List Char → Option (Nat × List Char)
  | [] => none
  | c :: rest =>
    if isDig c then
      match rest with
      | c2 :: rest2 =>
        if isDig c2 then some (digitVal c * 10 + digitVal c2, rest2)
        else some (digitVal c, c2 :: rest2)
      | [] => some (digitVal c, [])
    else none

/-- Python `datetime.strptime(date_str, "%Y-%m-%d").date()`: exactly four
digits for `%Y`, one or two digits for `%m` and `%d`, literal dashes, no
left-over input, plus the `datetime.date` range checks. -/
def strptimeDate (s : String) : Option (Nat × Nat × Nat) :=
  match s.data with
  | y1 :: y2 :: y3 :: y4 :: c :: rest =>
    if isDig y1 && isDig y2 && isDig y3 && isDig y4 && c == '-' then
      match readNum2 rest with
      | some (mo, c2 :: rest2) =>
        if c2 == '-' then
          match readNum2 rest2 with
          | some (d, []) =>
            if 1 ≤ digitVal y1 * 1000 + digitVal y2 * 100 + digitVal y3 * 10 + digitVal y4 &&
               1 ≤ mo && mo ≤ 12 && 1 ≤ d &&
               d ≤ daysInMonth (digitVal y1 * 1000 + digitVal y2 * 100 + digitVal y3 * 10 + digitVal y4) mo then
              some (digitVal y1 * 1000 + digitVal y2 * 100 + digitVal y3 * 10 + digitVal y4, mo, d)
            else none
          | _ => none
        else none
      | _ => none
    else none
  | _ => none

/-- Python `datetime.strptime(time_str, "%H:%M").time()`: one or two digits
for `%H` and `%M`, a literal colon, no left-over input, plus range checks. -/
def strptimeTime (s : String) : Option (Nat × Nat) :=
  match readNum2 s.data with
  | some (h, c :: rest) =>
    if c == ':' then
      match readNum2 rest with
      | some (mi, []) => if h ≤ 23 && mi ≤ 59 then some (h, mi) else none
      | _ => none
    else none
  | _ => none

/-- Python exceptions relevant to the program.  `schedulingError` is the
scheduler's own `SchedulingError`, `databaseError` the storage layer's
`DatabaseError`; `operationalError` stands for a raw sqlite3 error raised
by the engine itself (e.g. `sqlite3.OperationalError`) and `valueError`
for a raw `ValueError` from `strptime` on a stored value. -/
inductive PyErr where
  | schedulingError (msg : String)
  | databaseError (msg : String)
  | operationalError
  | valueError
deriving DecidableEq, Repr

deriving instance DecidableEq for Except

/-- Row of the `patients` or `doctors` table: `(id, name)`. -/
structure PersonRow where
  id : Nat
  name : String
deriving DecidableEq, Repr

/-- Row of the `appointments` table. -/
structure ApptRow where
  id : Nat
  patientId : Nat
  doctorId : Nat
  dtText : String
  status : String
  createdAt : String
deriving DecidableEq, Repr

/-- The SQLite database state: the three tables in rowid order and the next
AUTOINCREMENT value of each. -/
structure DB where
  patients : List PersonRow
  doctors : List PersonRow
  appts : List ApptRow
  nextPatientId : Nat
  nextDoctorId : Nat
  nextApptId : Nat
deriving DecidableEq, Repr

/-- The freshly created database (AUTOINCREMENT starts at 1). -/
def DB.empty : DB := ⟨[], [], [], 1, 1, 1⟩

/-- Appointment row joined with the patient and doctor names, before the
stored texts are parsed back (the SQL `SELECT ... JOIN ... ` row). -/
structure JoinedRow where
  appt : ApptRow
  pname : String
  dname : String
deriving DecidableEq, Repr

/-- Result dictionary built by `DatabaseManager.get_appointments` (equally
the `Appointment` object `Scheduler.get_appointments` copies it into:
the conversion is field for field). -/
structure ApptOut where
  id : Nat
  patient_name : String
  doctor_name : String
  appointment_datetime : DateTime
  status : String
  created_at : DateTime
deriving DecidableEq, Repr

namespace DatabaseManager

/-- The `DatabaseManager.get_or_create_patient` method: strip the name,
raise `DatabaseError` if empty, return the existing id on exact match,
else insert a new row. -/
def get_or_create_patient (fault : Bool) (name : String) (db : DB) :
    Except PyErr Nat × DB :=
  if fault then (.error .operationalError, db) else
  if pyStrip name = "" then (.error (.databaseError "Patient name cannot be empty."), db)
  else
    match db.patients.find? (fun p => p.name == pyStrip name) with
    | some p => (.ok p.id, db)
    | none =>
        (.ok db.nextPatientId,
         { db with patients := db.patients ++ [⟨db.nextPatientId, pyStrip name⟩],
                   nextPatientId := db.nextPatientId + 1 })

/-- The `DatabaseManager.get_or_create_doctor` method, symmetric to
`get_or_create_patient`. -/
def get_or_create_doctor (fault : Bool) (name : String) (db : DB) :
    Except PyErr Nat × DB :=
  if fault then (.error .operationalError, db) else
  if pyStrip name = "" then (.error (.databaseError "Doctor name cannot be empty."), db)
  else
    match db.doctors.find? (fun d => d.name == pyStrip name) with
    | some d => (.ok d.id, db)
    | none =>
        (.ok db.nextDoctorId,
         { db with doctors := db.doctors ++ [⟨db.nextDoctorId, pyStrip name⟩],
                   nextDoctorId := db.nextDoctorId + 1 })

/-- The `DatabaseManager.add_appointment` method.  The table's
`UNIQUE (doctor_id, appointment_datetime)` constraint is not scoped to a
status, so the insert raises on any existing row (booked or cancelled) for
the same doctor and datetime text; the method translates the resulting
`sqlite3.IntegrityError` into `DatabaseError`.  `now` is `datetime.now()`,
stored in the `created_at` column. -/
def add_appointment (fault : Bool) (patientId doctorId : Nat)
    (dt now : DateTime) (db : DB) : Except PyErr Nat × DB :=
  if fault then (.error .operationalError, db) else
  if db.appts.any (fun a => a.doctorId == doctorId && a.dtText == fmtISO dt) then
    (.error (.databaseError "Conflict: doctor already has an appointment at that time."), db)
  else
    (.ok db.nextApptId,
     { db with appts := db.appts ++
         [⟨db.nextApptId, patientId, doctorId, fmtISO dt, "booked", fmtISO now⟩],
               nextApptId := db.nextApptId + 1 })

/-- The `DatabaseManager.check_conflict` method: existence of a row for the
doctor and datetime text with `status = 'booked'`. -/
def check_conflict (fault : Bool) (doctorId : Nat) (dt : DateTime) (db : DB) :
    Except PyErr Bool × DB :=
  if fault then (.error .operationalError, db) else
  (.ok (db.appts.any fun a =>
      a.doctorId == doctorId && a.dtText == fmtISO dt && a.status == "booked"), db)

/-- One row of the SQL join in `get_appointments`: `none` when the
appointment's patient or doctor id has no matching row. -/
def joinRow (db : DB) (a : ApptRow) : Option JoinedRow :=
  match db.patients.find? (fun p => p.id == a.patientId),
        db.doctors.find? (fun d => d.id == a.doctorId) with
  | some p, some d => some ⟨a, p.name, d.name⟩
  | _, _ => none

/-- Byte-wise text comparison used by SQLite's BINARY collation for
`ORDER BY a.appointment_datetime ASC` (all stored characters are ASCII). -/
def textLe : List Char → List Char → Bool
  | [], _ => true
  | _ :: _, [] => false
  | a :: as, b :: bs =>
    decide (a.toNat < b.toNat) || (a.toNat == b.toNat && textLe as bs)

/-- Insertion step of the sort implementing `ORDER BY`. -/
def insertByText (x : JoinedRow) : List JoinedRow → List JoinedRow
  | [] => [x]
  | y :: ys =>
    if textLe x.appt.dtText.data y.appt.dtText.data then x :: y :: ys
    else y :: insertByText x ys

/-- Stable sort of the joined rows by the stored datetime text, a concrete
realisation of the SQL `ORDER BY a.appointment_datetime ASC`. -/
def sortByText : List JoinedRow → List JoinedRow
  | [] => []
  | x :: xs => insertByText x (sortByText xs)

/-- Fallback datetime used only to totalise `Option.getD`; every value it
is applied to in a reachable state parses successfully. -/
def dtDefault : DateTime := ⟨1900, 1, 1, 0, 0, 0⟩

/-- Conversion of one SQL row into the result dictionary, parsing the two
stored texts back into datetimes; `strptime` raises `ValueError` on a
malformed stored value. -/
def rowOut (j : JoinedRow) : Except PyErr ApptOut :=
  match parseISO j.appt.dtText, parseISO j.appt.createdAt with
  | some dtv, some ca =>
      .ok ⟨j.appt.id, j.pname, j.dname, dtv, j.appt.status, ca⟩
  | _, _ => .error .valueError

/-- Total variant of `rowOut` describing its value on rows whose stored
texts parse (used only to state lemmas, never by the operations). -/
def rowOutTotal (j : JoinedRow) : ApptOut :=
  ⟨j.appt.id, j.pname, j.dname, (parseISO j.appt.dtText).getD dtDefault,
   j.appt.status, (parseISO j.appt.createdAt).getD dtDefault⟩

/-- The `FROM ... JOIN ... WHERE a.status = 'booked'` part of the query in
`get_appointments`: join each appointment with its patient and doctor row
and keep the booked ones. -/
def sqlRows (db : DB) : List JoinedRow :=
  (db.appts.filterMap (joinRow db)).filter (fun j => j.appt.status == "booked")

/-- The optional `AND d.name = ?` clause: Python appends it only under
`if doctor_name:`, which treats the empty string like `None`. -/
def nameFilter (doctorName : Option String) (l : List JoinedRow) : List JoinedRow :=
  match doctorName with
  | some dn => if dn = "" then l else l.filter (fun j => j.dname == dn)
  | none => l

/-- The `LIMIT ?` clause (a negative SQL LIMIT means no cap). -/
def limitTake (limit : Int) (l : List JoinedRow) : List JoinedRow :=
  if limit < 0 then l else l.take limit.toNat

/-- The `DatabaseManager.get_appointments` method: join, keep
`status = 'booked'`, optionally filter by exact doctor name, order by the
datetime text ascending, apply `LIMIT`, and parse the stored texts back. -/
def get_appointments (fault : Bool) (limit : Int) (doctorName : Option String)
    (db : DB) : Except PyErr (List ApptOut) :=
  if fault then .error .operationalError else
  (limitTake limit (sortByText (nameFilter doctorName (sqlRows db)))).mapM rowOut

/-- The `DatabaseManager.reschedule_appointment` method: `UPDATE` of the
datetime text of the row with the given id (no row means a silent no-op);
the `UNIQUE (doctor_id, appointment_datetime)` constraint raises on a
collision with a different row, translated into `DatabaseError`. -/
def reschedule_appointment (fault : Bool) (appointmentId : Nat)
    (dt : DateTime) (db : DB) : Except PyErr Unit × DB :=
  if fault then (.error .operationalError, db) else
  match db.appts.find? (fun a => a.id == appointmentId) with
  | none => (.ok (), db)
  | some t =>
    if db.appts.any (fun a =>
        a.id != appointmentId && a.doctorId == t.doctorId && a.dtText == fmtISO dt) then
      (.error (.databaseError "Conflict when rescheduling: doctor already booked at that time."), db)
    else
      (.ok (), { db with appts := db.appts.map (fun a =>
          if a.id == appointmentId then { a with dtText := fmtISO dt } else a) })

/-- The `DatabaseManager.cancel_appointment` method: `UPDATE ... SET
status = 'cancelled' WHERE id = ?`; updating no rows is not an error. -/
def cancel_appointment (fault : Bool) (appointmentId : Nat) (db : DB) :
    Except PyErr Unit × DB :=
  if fault then (.error .operationalError, db) else
  (.ok (), { db with appts := db.appts.map (fun a =>
      if a.id == appointmentId then { a with status := "cancelled" } else a) })

end DatabaseManager

namespace Scheduler

/-- The `Scheduler._parse_datetime` method: strip both strings, parse with
`"%Y-%m-%d"` and `"%H:%M"`, combine (`datetime.combine` gives second 0);
any `ValueError` becomes `SchedulingError`. -/
def parse_datetime (dateStr timeStr : String) : Except PyErr DateTime :=
  match strptimeDate (pyStrip dateStr), strptimeTime (pyStrip timeStr) with
  | some (y, mo, d), some (h, mi) => .ok ⟨y, mo, d, h, mi, 0⟩
  | _, _ => .error (.schedulingError "Invalid date or time format. Use YYYY-MM-DD and HH:MM.")

/-- Business-hour constant `WORK_START` of `Scheduler`. -/
def WORK_START : Nat := 9

/-- Business-hour constant `WORK_END` of `Scheduler`. -/
def WORK_END : Nat := 17

/-- Slot-size constant `SLOT_MINUTES` of `Scheduler`. -/
def SLOT_MINUTES : Nat := 30

/-- The `Scheduler._validate_slot_and_business_hours` method.  The first
`if` of the Python body ends in `pass` and has no effect; the effective
checks are, in order: minute on a half-hour boundary, the working-hours
condition `WORK_START <= hour < WORK_END or (hour == WORK_END - 1 and
minute == 30)`, and strict futurity (`dt <= now` is rejected, with `now =
datetime.now()`). -/
def validate_slot_and_business_hours (dt now : DateTime) : Except PyErr Unit :=
  if !(dt.minute == 0 || dt.minute == SLOT_MINUTES) then
    .error (.schedulingError "Appointments must be on 30-minute boundaries (0 or 30).")
  else if !(decide (WORK_START ≤ dt.hour ∧ dt.hour < WORK_END) ||
            (dt.hour == WORK_END - 1 && dt.minute == 30)) then
    .error (.schedulingError "Appointment must be during working hours (9:00–17:00).")
  else if dt.le now then
    .error (.schedulingError "Cannot book an appointment in the past. Please select a future date and time.")
  else .ok ()

/-- The `Scheduler.book_appointment` method.  Only `DatabaseError` is
caught around the get-or-create pair and around the insert (the Python
`except DatabaseError` and the `DatabaseError` translation in
`add_appointment`); a raw sqlite error propagates unchanged, and nothing
guards `check_conflict`. -/
def book_appointment (fault : Bool) (patientName doctorName dateStr timeStr : String)
    (now : DateTime) (db : DB) : Except PyErr Nat × DB :=
  if patientName = "" || doctorName = "" then
    (.error (.schedulingError "Patient and Doctor names must be provided."), db)
  else
    match parse_datetime dateStr timeStr with
    | .error e => (.error e, db)
    | .ok dt =>
      match validate_slot_and_business_hours dt now with
      | .error e => (.error e, db)
      | .ok () =>
        match DatabaseManager.get_or_create_patient fault (pyStrip patientName) db with
        | (.error (.databaseError m), db1) =>
            (.error (.schedulingError
              ("Database error while finding/creating patient or doctor: " ++ m)), db1)
        | (.error e, db1) => (.error e, db1)
        | (.ok patientId, db1) =>
          match DatabaseManager.get_or_create_doctor fault (pyStrip doctorName) db1 with
          | (.error (.databaseError m), db2) =>
              (.error (.schedulingError
                ("Database error while finding/creating patient or doctor: " ++ m)), db2)
          | (.error e, db2) => (.error e, db2)
          | (.ok doctorId, db2) =>
            match DatabaseManager.check_conflict fault doctorId dt db2 with
            | (.error e, db3) => (.error e, db3)
            | (.ok true, db3) =>
                (.error (.schedulingError "Doctor already booked at that time."), db3)
            | (.ok false, db3) =>
              match DatabaseManager.add_appointment fault patientId doctorId dt now db3 with
              | (.ok i, db4) => (.ok i, db4)
              | (.error (.databaseError m), db4) => (.error (.schedulingError m), db4)
              | (.error e, db4) => (.error e, db4)

/-- The `Scheduler.get_appointments` method: a pass-through of the storage
rows, copied field by field into `Appointment` objects (same fields, so the
same `ApptOut` type here); no `except` around the storage call. -/
def get_appointments (fault : Bool) (limit : Int) (doctorName : Option String)
    (db : DB) : Except PyErr (List ApptOut) :=
  DatabaseManager.get_appointments fault limit doctorName db

/-- The `Scheduler.reschedule` method: parse and validate the new slot,
then delegate, translating `DatabaseError` into `SchedulingError`. -/
def reschedule (fault : Bool) (appointmentId : Nat) (newDate newTime : String)
    (now : DateTime) (db : DB) : Except PyErr Unit × DB :=
  match parse_datetime newDate newTime with
  | .error e => (.error e, db)
  | .ok dt =>
    match validate_slot_and_business_hours dt now with
    | .error e => (.error e, db)
    | .ok () =>
      match DatabaseManager.reschedule_appointment fault appointmentId dt db with
      | (.ok (), db1) => (.ok (), db1)
      | (.error (.databaseError m), db1) => (.error (.schedulingError m), db1)
      | (.error e, db1) => (.error e, db1)

/-- The `Scheduler.cancel` method: a direct delegation to
`cancel_appointment` with no validation and no `except` of any kind. -/
def cancel (fault : Bool) (appointmentId : Nat) (db : DB) : Except PyErr Unit × DB :=
  DatabaseManager.cancel_appointment fault appointmentId db

end Scheduler

/-- Database states reachable from the fresh database by any sequence of the
four engine operations, with arbitrary caller inputs, arbitrary storage
faults, and any wall-clock value `datetime.now()` can return (`Bounded`).
`get_appointments` reads without mutating, so it is the identity step. -/
inductive Reachable : DB → Prop where
  | empty : Reachable DB.empty
  | book (db : DB) (fault : Bool) (pn dn ds ts : String) (now : DateTime)
      (h : Reachable db) (hnow : Bounded now) :
      Reachable (Scheduler.book_appointment fault pn dn ds ts now db).2
  | reschedule (db : DB) (fault : Bool) (id : Nat) (ds ts : String) (now : DateTime)
      (h : Reachable db) (hnow : Bounded now) :
      Reachable (Scheduler.reschedule fault id ds ts now db).2
  | cancel (db : DB) (fault : Bool) (id : Nat) (h : Reachable db) :
      Reachable (Scheduler.cancel fault id db).2
  | getAppts (db : DB) (h : Reachable db) : Reachable db

/-- A stored text is canonical when it is the `fmtISO` rendering of a
runtime-constructible datetime. -/
def Canon (s : String) : Prop := ∃ dt, Bounded dt ∧ fmtISO dt = s

/-- Well-formedness of a database state, maintained by every operation:
id bounds and uniqueness, the `UNIQUE (doctor_id, appointment_datetime)`
constraint over all rows, referential integrity of the two foreign keys,
and canonical stored texts. -/
structure DBWF (db : DB) : Prop where
  patIds : ∀ p ∈ db.patients, p.id < db.nextPatientId
  patNodup : (db.patients.map PersonRow.id).Nodup
  docIds : ∀ d ∈ db.doctors, d.id < db.nextDoctorId
  docNodup : (db.doctors.map PersonRow.id).Nodup
  apptIds : ∀ a ∈ db.appts, a.id < db.nextApptId
  apptNodup : (db.appts.map ApptRow.id).Nodup
  uniqueDS : db.appts.Pairwise (fun a b => a.doctorId ≠ b.doctorId ∨ a.dtText ≠ b.dtText)
  refsP : ∀ a ∈ db.appts, ∃ p ∈ db.patients, p.id = a.patientId
  refsD : ∀ a ∈ db.appts, ∃ d ∈ db.doctors, d.id = a.doctorId
  canon : ∀ a ∈ db.appts, Canon a.dtText ∧ Canon a.createdAt

/-- Field widths under which the zero-padded `fmtISO` rendering is faithful
(weaker than `Bounded`; implied by it). -/
def WidthOK (dt : DateTime) : Prop :=
  dt.year ≤ 9999 ∧ dt.month ≤ 99 ∧ dt.day ≤ 99 ∧
  dt.hour ≤ 99 ∧ dt.minute ≤ 99 ∧ dt.second ≤ 99

/-- An error value of the scheduler's own tagged kind (`SchedulingError`). -/
def IsSchedErr : PyErr → Prop
  | .schedulingError _ => True
  | _ => False

/-- Specification of `getAppointments(limit, doctorNameFilter)` as the claim
states it: exactly the `booked` appointments (restricted to an exact doctor
name match when a non-empty filter is given), joined with patient and doctor
names, sorted ascending by slot start, at most `limit` rows, and complete
whenever `limit` covers all booked rows. -/
def GetApptsSpec (db : DB) (limit : Int) (dn : Option String)
    (rows : List ApptOut) : Prop :=
  (∀ r ∈ rows, ∃ a ∈ db.appts, a.status = "booked" ∧ r.id = a.id ∧
      r.status = a.status ∧ fmtISO r.appointment_datetime = a.dtText ∧
      (∃ p ∈ db.patients, p.id = a.patientId ∧ r.patient_name = p.name) ∧
      (∃ d ∈ db.doctors, d.id = a.doctorId ∧ r.doctor_name = d.name) ∧
      (∀ n, dn = some n → n ≠ "" → r.doctor_name = n)) ∧
  rows.Pairwise (fun r1 r2 =>
      DateTime.le r1.appointment_datetime r2.appointment_datetime = true) ∧
  rows.length ≤ limit.toNat ∧
  ((db.appts.filter (fun a => a.status == "booked")).length ≤ limit.toNat →
    ∀ a ∈ db.appts, a.status = "booked" →
      (∀ n, dn = some n → n ≠ "" → ∃ d ∈ db.doctors, d.id = a.doctorId ∧ d.name = n) →
      ∃ r ∈ rows, r.id = a.id ∧ fmtISO r.appointment_datetime = a.dtText)

/-- Fixed reference wall clock used by the concrete scenarios (a moment
well before the example slots, mirroring `datetime.now()` during a test). -/
def nowEarly : DateTime := ⟨2020, 1, 1, 0, 0, 0⟩

/-- State after booking patient "Alice" with "Dr. Smith" for
2030-01-07 10:00 on the fresh database (the spec's concrete scenario). -/
def dbAlice : DB :=
  (Scheduler.book_appointment false "Alice" "Dr. Smith" "2030-01-07" "10:00"
    nowEarly DB.empty).2

/-- State after additionally booking "Bob" with "Dr. Smith" for
2030-01-07 10:30. -/
def dbAliceBob : DB :=
  (Scheduler.book_appointment false "Bob" "Dr. Smith" "2030-01-07" "10:30"
    nowEarly dbAlice).2

/-- State after cancelling appointment 1 in `dbAlice` (the only appointment
for (Dr. Smith, 2030-01-07 10:00) now has status `cancelled`). -/
def dbAliceCancelled : DB := (Scheduler.cancel false 1 dbAlice).2

end SchedSys

namespace SchedSys

/-! ### Arithmetic and text infrastructure -/

theorem digitChar_toNat (n : Nat) : (digitChar n).toNat = 48 + n % 10 := rfl

theorem isDig_digitChar (n : Nat) : isDig (digitChar n) = true := by
  simp only [isDig, digitChar_toNat, Bool.and_eq_true, decide_eq_true_eq]
  omega

theorem digitVal_digitChar (n : Nat) : digitVal (digitChar n) = n % 10 := by
  simp only [digitVal, digitChar_toNat]
  omega

theorem daysInMonth_le (y m : Nat) : daysInMonth y m ≤ 31 := by
  unfold daysInMonth
  split_ifs <;> omega

theorem Bounded.widthOK {dt : DateTime} (h : Bounded dt) : WidthOK dt := by
  obtain ⟨h1, h2, h3, h4, h5, h6, h7, h8, h9⟩ := h
  have := daysInMonth_le dt.year dt.month
  exact ⟨by omega, by omega, by omega, by omega, by omega, by omega⟩

theorem fmtISO_data (dt : DateTime) :
    (fmtISO dt).data =
      [digitChar (dt.year / 1000 % 10), digitChar (dt.year / 100 % 10),
       digitChar (dt.year / 10 % 10), digitChar (dt.year % 10), '-',
       digitChar (dt.month / 10 % 10), digitChar (dt.month % 10), '-',
       digitChar (dt.day / 10 % 10), digitChar (dt.day % 10), 'T',
       digitChar (dt.hour / 10 % 10), digitChar (dt.hour % 10), ':',
       digitChar (dt.minute / 10 % 10), digitChar (dt.minute % 10), ':',
       digitChar (dt.second / 10 % 10), digitChar (dt.second % 10)] := rfl

/-- Round trip: the `strftime` rendering of any runtime-constructible
datetime parses back to the same value with `strptime`. -/
theorem parseISO_fmtISO (dt : DateTime) (h : Bounded dt) :
    parseISO (fmtISO dt) = some dt := by
  obtain ⟨h1, h2, h3, h4, h5, h6, h7, h8, h9⟩ := h
  have hY : digitVal (digitChar (dt.year / 1000 % 10)) * 1000 +
      digitVal (digitChar (dt.year / 100 % 10)) * 100 +
      digitVal (digitChar (dt.year / 10 % 10)) * 10 +
      digitVal (digitChar (dt.year % 10)) = dt.year := by
    simp only [digitVal_digitChar]; omega
  have hMo : digitVal (digitChar (dt.month / 10 % 10)) * 10 +
      digitVal (digitChar (dt.month % 10)) = dt.month := by
    simp only [digitVal_digitChar]; omega
  have hD : digitVal (digitChar (dt.day / 10 % 10)) * 10 +
      digitVal (digitChar (dt.day % 10)) = dt.day := by
    have := daysInMonth_le dt.year dt.month
    simp only [digitVal_digitChar]; omega
  have hH : digitVal (digitChar (dt.hour / 10 % 10)) * 10 +
      digitVal (digitChar (dt.hour % 10)) = dt.hour := by
    simp only [digitVal_digitChar]; omega
  have hMi : digitVal (digitChar (dt.minute / 10 % 10)) * 10 +
      digitVal (digitChar (dt.minute % 10)) = dt.minute := by
    simp only [digitVal_digitChar]; omega
  have hS : digitVal (digitChar (dt.second / 10 % 10)) * 10 +
      digitVal (digitChar (dt.second % 10)) = dt.second := by
    simp only [digitVal_digitChar]; omega
  unfold parseISO
  rw [fmtISO_data]
  simp only [isDig_digitChar, hY, hMo, hD, hH, hMi, hS]
  norm_num
  omega

end SchedSys

namespace SchedSys

open DatabaseManager

/-! ### Text order: block lemmas for the zero-padded rendering -/

theorem textLe_cons_same (c : Char) (r s : List Char) :
    textLe (c :: r) (c :: s) = textLe r s := by
  simp [textLe]

theorem textLe_pad2_lt {m n : Nat} (r s : List Char) (h : m < n) (hn : n ≤ 99) :
    textLe (pad2 m ++ r) (pad2 n ++ s) = true := by
  simp only [pad2, List.cons_append, textLe, digitChar_toNat, Bool.or_eq_true,
    Bool.and_eq_true, decide_eq_true_eq, beq_iff_eq]
  by_cases hd : m / 10 % 10 < n / 10 % 10
  · left; omega
  · right; exact ⟨by omega, by left; omega⟩

theorem textLe_pad2_gt {m n : Nat} (r s : List Char) (h : n < m) (hm : m ≤ 99) :
    textLe (pad2 m ++ r) (pad2 n ++ s) = false := by
  rw [Bool.eq_false_iff]
  intro hc
  simp only [pad2, List.cons_append, textLe, digitChar_toNat, Bool.or_eq_true,
    Bool.and_eq_true, decide_eq_true_eq, beq_iff_eq] at hc
  rcases hc with hc | ⟨hc1, hc | ⟨hc2, _⟩⟩ <;> omega

theorem textLe_pad2_eq {m n : Nat} (r s : List Char) (h : m = n) :
    textLe (pad2 m ++ r) (pad2 n ++ s) = textLe r s := by
  subst h
  simp [pad2, textLe]

theorem pad4_decomp (m : Nat) : pad4 m = pad2 (m / 100) ++ pad2 (m % 100) := by
  have e1 : m / 100 / 10 % 10 = m / 1000 % 10 := by omega
  have e3 : m % 100 / 10 % 10 = m / 10 % 10 := by omega
  have e4 : m % 100 % 10 = m % 10 := by omega
  simp [pad4, pad2, e1, e3, e4]

theorem textLe_pad4_lt {m n : Nat} (r s : List Char) (h : m < n) (hn : n ≤ 9999) :
    textLe (pad4 m ++ r) (pad4 n ++ s) = true := by
  rw [pad4_decomp, pad4_decomp, List.append_assoc, List.append_assoc]
  rcases Nat.lt_or_ge (m / 100) (n / 100) with h1 | h1
  · exact textLe_pad2_lt _ _ h1 (by omega)
  · have h2 : m / 100 = n / 100 := by omega
    rw [textLe_pad2_eq _ _ h2]
    exact textLe_pad2_lt _ _ (by omega) (by omega)

theorem textLe_pad4_gt {m n : Nat} (r s : List Char) (h : n < m) (hm : m ≤ 9999) :
    textLe (pad4 m ++ r) (pad4 n ++ s) = false := by
  rw [pad4_decomp, pad4_decomp, List.append_assoc, List.append_assoc]
  rcases Nat.lt_or_ge (n / 100) (m / 100) with h1 | h1
  · exact textLe_pad2_gt _ _ h1 (by omega)
  · have h2 : m / 100 = n / 100 := by omega
    rw [textLe_pad2_eq _ _ h2]
    exact textLe_pad2_gt _ _ (by omega) (by omega)

theorem textLe_pad4_eq {m n : Nat} (r s : List Char) (h : m = n) :
    textLe (pad4 m ++ r) (pad4 n ++ s) = textLe r s := by
  subst h
  simp [pad4, textLe]

theorem fmtISO_data_blocks (dt : DateTime) :
    (fmtISO dt).data =
      pad4 dt.year ++ '-' :: (pad2 dt.month ++ '-' :: (pad2 dt.day ++
        'T' :: (pad2 dt.hour ++ ':' :: (pad2 dt.minute ++
          ':' :: (pad2 dt.second ++ []))))) := by
  simp [fmtISO]

theorem dtLe_true {a b : DateTime}
    (h : a.year < b.year ∨ (a.year = b.year ∧ (a.month < b.month ∨ (a.month = b.month ∧
      (a.day < b.day ∨ (a.day = b.day ∧ (a.hour < b.hour ∨ (a.hour = b.hour ∧
      (a.minute < b.minute ∨ (a.minute = b.minute ∧ a.second ≤ b.second)))))))))) :
    DateTime.le a b = true := by
  simp only [DateTime.le, Bool.or_eq_true, Bool.and_eq_true, decide_eq_true_eq,
    beq_iff_eq]
  tauto

theorem dtLe_false {a b : DateTime}
    (h : b.year < a.year ∨ (a.year = b.year ∧ (b.month < a.month ∨ (a.month = b.month ∧
      (b.day < a.day ∨ (a.day = b.day ∧ (b.hour < a.hour ∨ (a.hour = b.hour ∧
      (b.minute < a.minute ∨ (a.minute = b.minute ∧ b.second < a.second)))))))))) :
    DateTime.le a b = false := by
  rw [Bool.eq_false_iff]
  intro hc
  simp only [DateTime.le, Bool.or_eq_true, Bool.and_eq_true, decide_eq_true_eq,
    beq_iff_eq] at hc
  rcases hc with hc | ⟨e1, hc | ⟨e2, hc | ⟨e3, hc | ⟨e4, hc | ⟨e5, hc⟩⟩⟩⟩⟩ <;> omega

/-- Byte-wise text order agrees with the datetime order on canonical
zero-padded renderings. -/
theorem textLe_fmtISO (a b : DateTime) (ha : WidthOK a) (hb : WidthOK b) :
    textLe (fmtISO a).data (fmtISO b).data = DateTime.le a b := by
  obtain ⟨ha1, ha2, ha3, ha4, ha5, ha6⟩ := ha
  obtain ⟨hb1, hb2, hb3, hb4, hb5, hb6⟩ := hb
  rw [fmtISO_data_blocks, fmtISO_data_blocks]
  rcases Nat.lt_trichotomy a.year b.year with hy | hy | hy
  · rw [textLe_pad4_lt _ _ hy hb1, dtLe_true (by omega)]
  · rw [textLe_pad4_eq _ _ hy, textLe_cons_same]
    rcases Nat.lt_trichotomy a.month b.month with hm | hm | hm
    · rw [textLe_pad2_lt _ _ hm hb2, dtLe_true (by omega)]
    · rw [textLe_pad2_eq _ _ hm, textLe_cons_same]
      rcases Nat.lt_trichotomy a.day b.day with hd | hd | hd
      · rw [textLe_pad2_lt _ _ hd hb3, dtLe_true (by omega)]
      · rw [textLe_pad2_eq _ _ hd, textLe_cons_same]
        rcases Nat.lt_trichotomy a.hour b.hour with hh | hh | hh
        · rw [textLe_pad2_lt _ _ hh hb4, dtLe_true (by omega)]
        · rw [textLe_pad2_eq _ _ hh, textLe_cons_same]
          rcases Nat.lt_trichotomy a.minute b.minute with hmi | hmi | hmi
          · rw [textLe_pad2_lt _ _ hmi hb5, dtLe_true (by omega)]
          · rw [textLe_pad2_eq _ _ hmi, textLe_cons_same]
            rcases Nat.lt_trichotomy a.second b.second with hs | hs | hs
            · rw [textLe_pad2_lt _ _ hs hb6, dtLe_true (by omega)]
            · rw [textLe_pad2_eq _ _ hs]
              simp only [textLe]
              rw [dtLe_true (by omega)]
            · rw [textLe_pad2_gt _ _ hs ha6, dtLe_false (by omega)]
          · rw [textLe_pad2_gt _ _ hmi ha5, dtLe_false (by omega)]
        · rw [textLe_pad2_gt _ _ hh ha4, dtLe_false (by omega)]
      · rw [textLe_pad2_gt _ _ hd ha3, dtLe_false (by omega)]
    · rw [textLe_pad2_gt _ _ hm ha2, dtLe_false (by omega)]
  · rw [textLe_pad4_gt _ _ hy ha1, dtLe_false (by omega)]

theorem textLe_total (x y : List Char) : textLe x y = true ∨ textLe y x = true := by
  induction x generalizing y with
  | nil => left; rfl
  | cons a as ih =>
    cases y with
    | nil => right; rfl
    | cons b bs =>
      simp only [textLe, Bool.or_eq_true, Bool.and_eq_true, decide_eq_true_eq,
        beq_iff_eq]
      rcases Nat.lt_trichotomy a.toNat b.toNat with h | h | h
      · left; left; exact h
      · rcases ih bs with h2 | h2
        · left; right; exact ⟨h, h2⟩
        · right; right; exact ⟨h.symm, h2⟩
      · right; left; exact h

theorem textLe_trans {x y z : List Char} (h1 : textLe x y = true)
    (h2 : textLe y z = true) : textLe x z = true := by
  induction x generalizing y z with
  | nil => rfl
  | cons a as ih =>
    cases y with
    | nil => simp [textLe] at h1
    | cons b bs =>
      cases z with
      | nil => simp [textLe] at h2
      | cons c cs =>
        simp only [textLe, Bool.or_eq_true, Bool.and_eq_true, decide_eq_true_eq,
          beq_iff_eq] at h1 h2 ⊢
        rcases h1 with h1 | ⟨h1e, h1t⟩
        · rcases h2 with h2 | ⟨h2e, h2t⟩
          · left; omega
          · left; omega
        · rcases h2 with h2 | ⟨h2e, h2t⟩
          · left; omega
          · right; exact ⟨by omega, ih h1t h2t⟩

/-! ### The insertion sort realising `ORDER BY` -/

theorem mem_insertByText {x j : JoinedRow} {l : List JoinedRow} :
    j ∈ insertByText x l ↔ j = x ∨ j ∈ l := by
  induction l with
  | nil => simp [insertByText]
  | cons y ys ih =>
    by_cases h : textLe x.appt.dtText.data y.appt.dtText.data = true
    · simp only [insertByText, if_pos h, List.mem_cons]
    · simp only [insertByText, if_neg h, List.mem_cons, ih]
      tauto

theorem mem_sortByText {j : JoinedRow} {l : List JoinedRow} :
    j ∈ sortByText l ↔ j ∈ l := by
  induction l with
  | nil => simp [sortByText]
  | cons x xs ih => simp [sortByText, mem_insertByText, ih]

theorem length_insertByText (x : JoinedRow) (l : List JoinedRow) :
    (insertByText x l).length = l.length + 1 := by
  induction l with
  | nil => rfl
  | cons y ys ih =>
    by_cases h : textLe x.appt.dtText.data y.appt.dtText.data = true
    · simp [insertByText, if_pos h]
    · simp [insertByText, if_neg h, ih]

theorem length_sortByText (l : List JoinedRow) :
    (sortByText l).length = l.length := by
  induction l with
  | nil => rfl
  | cons x xs ih => simp [sortByText, length_insertByText, ih]

theorem pairwise_insertByText {x : JoinedRow} {l : List JoinedRow}
    (h : l.Pairwise (fun u v => textLe u.appt.dtText.data v.appt.dtText.data = true)) :
    (insertByText x l).Pairwise
      (fun u v => textLe u.appt.dtText.data v.appt.dtText.data = true) := by
  induction l with
  | nil => simp [insertByText]
  | cons y ys ih =>
    rcases List.pairwise_cons.mp h with ⟨hy, hys⟩
    by_cases hc : textLe x.appt.dtText.data y.appt.dtText.data = true
    · rw [insertByText, if_pos hc]
      refine List.pairwise_cons.mpr ⟨?_, h⟩
      intro v hv
      rcases List.mem_cons.mp hv with rfl | hv
      · exact hc
      · exact textLe_trans hc (hy v hv)
    · rw [insertByText, if_neg hc]
      have hyx : textLe y.appt.dtText.data x.appt.dtText.data = true := by
        rcases textLe_total x.appt.dtText.data y.appt.dtText.data with h1 | h1
        · exact absurd h1 hc
        · exact h1
      refine List.pairwise_cons.mpr ⟨?_, ih hys⟩
      intro v hv
      rcases mem_insertByText.mp hv with rfl | hv
      · exact hyx
      · exact hy v hv

theorem pairwise_sortByText (l : List JoinedRow) :
    (sortByText l).Pairwise
      (fun u v => textLe u.appt.dtText.data v.appt.dtText.data = true) := by
  induction l with
  | nil => simp [sortByText]
  | cons x xs ih => exact pairwise_insertByText ih

end SchedSys

namespace SchedSys

open DatabaseManager

/-! ### Elementary facts about stored values and parsing -/

theorem isDig_val_le {c : Char} (h : isDig c = true) : digitVal c ≤ 9 := by
  simp only [isDig, Bool.and_eq_true, decide_eq_true_eq] at h
  simp only [digitVal]
  omega

theorem canon_fmtISO {dt : DateTime} (h : Bounded dt) : Canon (fmtISO dt) :=
  ⟨dt, h, rfl⟩

theorem Canon.parse {s : String} (h : Canon s) :
    ∃ dt, Bounded dt ∧ parseISO s = some dt ∧ fmtISO dt = s := by
  obtain ⟨dt, hb, rfl⟩ := h
  exact ⟨dt, hb, parseISO_fmtISO dt hb, rfl⟩

theorem strptimeDate_bounds {s : String} {y mo d : Nat}
    (h : strptimeDate s = some (y, mo, d)) :
    1 ≤ y ∧ y ≤ 9999 ∧ 1 ≤ mo ∧ mo ≤ 12 ∧ 1 ≤ d ∧ d ≤ daysInMonth y mo := by
  unfold strptimeDate at h
  split at h
  · split_ifs at h with h1
    · simp only [Bool.and_eq_true] at h1
      obtain ⟨⟨⟨⟨hd1, hd2⟩, hd3⟩, hd4⟩, hc⟩ := h1
      have e1 := isDig_val_le hd1
      have e2 := isDig_val_le hd2
      have e3 := isDig_val_le hd3
      have e4 := isDig_val_le hd4
      split at h
      · split_ifs at h with h2
        · split at h
          · split_ifs at h with h3
            · simp only [Option.some.injEq, Prod.mk.injEq] at h
              obtain ⟨hy, hmo, hd⟩ := h
              simp only [Bool.and_eq_true, decide_eq_true_eq] at h3
              obtain ⟨⟨⟨⟨g1, g2⟩, g3⟩, g4⟩, g5⟩ := h3
              subst hy hmo hd
              exact ⟨g1, by omega, g2, g3, g4, g5⟩
          · exact absurd h (by simp)
      · exact absurd h (by simp)
  · exact absurd h (by simp)

theorem strptimeTime_bounds {s : String} {h mi : Nat}
    (hp : strptimeTime s = some (h, mi)) : h ≤ 23 ∧ mi ≤ 59 := by
  unfold strptimeTime at hp
  split at hp
  · split_ifs at hp with h1
    · split at hp
      · split_ifs at hp with h2
        · simp only [Bool.and_eq_true, decide_eq_true_eq] at h2
          simp only [Option.some.injEq, Prod.mk.injEq] at hp
          obtain ⟨hh, hm⟩ := hp
          subst hh hm
          exact h2
      · exact absurd hp (by simp)
  · exact absurd hp (by simp)

theorem parse_datetime_bounded {ds ts : String} {dt : DateTime}
    (h : Scheduler.parse_datetime ds ts = .ok dt) : Bounded dt := by
  unfold Scheduler.parse_datetime at h
  split at h
  · rename_i y mo d hh mi hd ht
    simp only [Except.ok.injEq] at h
    subst h
    obtain ⟨b1, b2, b3, b4, b5, b6⟩ := strptimeDate_bounds hd
    obtain ⟨b7, b8⟩ := strptimeTime_bounds ht
    exact ⟨b1, b2, b3, b4, b5, b6, b7, b8, Nat.zero_le _⟩
  · exact absurd h (by simp)

/-- Uniqueness of `find?` by a numeric key on lists without duplicate keys. -/
theorem find_key_eq {α : Type} (k : α → Nat) (l : List α) (v : Nat)
    (hn : (l.map k).Nodup) {a : α} (ha : a ∈ l) (hk : k a = v) :
    l.find? (fun x => k x == v) = some a := by
  induction l with
  | nil => cases ha
  | cons b bs ih =>
    simp only [List.map_cons, List.nodup_cons] at hn
    rcases List.mem_cons.mp ha with rfl | ha2
    · exact List.find?_cons_of_pos _ (by simp [hk])
    · have hne : k b ≠ v := by
        intro he
        exact hn.1 (List.mem_map.mpr ⟨a, ha2, by omega⟩)
      rw [List.find?_cons_of_neg _ (by simp [hne])]
      exact ih hn.2 ha2

end SchedSys

namespace SchedSys

open DatabaseManager

/-! ### Shapes of the storage operations -/

theorem check_conflict_snd (f : Bool) (did : Nat) (dt : DateTime) (db : DB) :
    (check_conflict f did dt db).2 = db := by
  unfold check_conflict
  split <;> rfl

theorem goc_patient_cases (f : Bool) (n : String) (db : DB) :
    (get_or_create_patient f n db).2 = db ∨
    (get_or_create_patient f n db).2 =
      { db with patients := db.patients ++ [⟨db.nextPatientId, pyStrip n⟩],
                nextPatientId := db.nextPatientId + 1 } := by
  unfold get_or_create_patient
  split_ifs
  · left; rfl
  · left; rfl
  · split
    · left; rfl
    · right; rfl

theorem goc_doctor_cases (f : Bool) (n : String) (db : DB) :
    (get_or_create_doctor f n db).2 = db ∨
    (get_or_create_doctor f n db).2 =
      { db with doctors := db.doctors ++ [⟨db.nextDoctorId, pyStrip n⟩],
                nextDoctorId := db.nextDoctorId + 1 } := by
  unfold get_or_create_doctor
  split_ifs
  · left; rfl
  · left; rfl
  · split
    · left; rfl
    · right; rfl

theorem goc_patient_ok {f : Bool} {n : String} {db : DB} {pid : Nat} {db2 : DB}
    (h : get_or_create_patient f n db = (.ok pid, db2)) :
    ∃ p ∈ db2.patients, p.id = pid := by
  unfold get_or_create_patient at h
  split_ifs at h
  · exact absurd h (by simp)
  · exact absurd h (by simp)
  · split at h
    · rename_i p hfind
      simp only [Prod.mk.injEq, Except.ok.injEq] at h
      obtain ⟨hpid, hdb⟩ := h
      subst hdb
      exact ⟨p, List.mem_of_find?_eq_some hfind, hpid⟩
    · simp only [Prod.mk.injEq, Except.ok.injEq] at h
      obtain ⟨hpid, hdb⟩ := h
      subst hdb
      exact ⟨⟨db.nextPatientId, pyStrip n⟩, by simp, hpid.symm ▸ rfl⟩

theorem goc_doctor_ok {f : Bool} {n : String} {db : DB} {did : Nat} {db2 : DB}
    (h : get_or_create_doctor f n db = (.ok did, db2)) :
    ∃ d ∈ db2.doctors, d.id = did := by
  unfold get_or_create_doctor at h
  split_ifs at h
  · exact absurd h (by simp)
  · exact absurd h (by simp)
  · split at h
    · rename_i d hfind
      simp only [Prod.mk.injEq, Except.ok.injEq] at h
      obtain ⟨hdid, hdb⟩ := h
      subst hdb
      exact ⟨d, List.mem_of_find?_eq_some hfind, hdid⟩
    · simp only [Prod.mk.injEq, Except.ok.injEq] at h
      obtain ⟨hdid, hdb⟩ := h
      subst hdb
      exact ⟨⟨db.nextDoctorId, pyStrip n⟩, by simp, hdid.symm ▸ rfl⟩

theorem goc_patient_doctors (f : Bool) (n : String) (db : DB) :
    (get_or_create_patient f n db).2.doctors = db.doctors ∧
    (get_or_create_patient f n db).2.appts = db.appts ∧
    (get_or_create_patient f n db).2.nextDoctorId = db.nextDoctorId ∧
    (get_or_create_patient f n db).2.nextApptId = db.nextApptId ∧
    (∀ p ∈ db.patients, p ∈ (get_or_create_patient f n db).2.patients) := by
  rcases goc_patient_cases f n db with h | h <;> rw [h]
  · exact ⟨rfl, rfl, rfl, rfl, fun p hp => hp⟩
  · exact ⟨rfl, rfl, rfl, rfl, fun p hp => List.mem_append_left _ hp⟩

theorem goc_doctor_patients (f : Bool) (n : String) (db : DB) :
    (get_or_create_doctor f n db).2.patients = db.patients ∧
    (get_or_create_doctor f n db).2.appts = db.appts ∧
    (get_or_create_doctor f n db).2.nextPatientId = db.nextPatientId ∧
    (get_or_create_doctor f n db).2.nextApptId = db.nextApptId ∧
    (∀ d ∈ db.doctors, d ∈ (get_or_create_doctor f n db).2.doctors) := by
  rcases goc_doctor_cases f n db with h | h <;> rw [h]
  · exact ⟨rfl, rfl, rfl, rfl, fun d hd => hd⟩
  · exact ⟨rfl, rfl, rfl, rfl, fun d hd => List.mem_append_left _ hd⟩

theorem add_appointment_cases (f : Bool) (pid did : Nat) (dt now : DateTime) (db : DB) :
    (add_appointment f pid did dt now db).2 = db ∨
    ((db.appts.any (fun a => a.doctorId == did && a.dtText == fmtISO dt)) = false ∧
     (add_appointment f pid did dt now db).2 =
       { db with appts := db.appts ++
           [⟨db.nextApptId, pid, did, fmtISO dt, "booked", fmtISO now⟩],
                 nextApptId := db.nextApptId + 1 }) := by
  unfold add_appointment
  split_ifs with h1 h2
  · left; rfl
  · left; rfl
  · right
    exact ⟨by simpa using h2, rfl⟩

theorem reschedule_appointment_cases (f : Bool) (id2 : Nat) (dt : DateTime) (db : DB) :
    (reschedule_appointment f id2 dt db).2 = db ∨
    (∃ t ∈ db.appts, t.id = id2 ∧
      (db.appts.any (fun a =>
        a.id != id2 && a.doctorId == t.doctorId && a.dtText == fmtISO dt)) = false ∧
      (reschedule_appointment f id2 dt db).2 =
        { db with appts := db.appts.map (fun a =>
            if a.id == id2 then { a with dtText := fmtISO dt } else a) }) := by
  unfold reschedule_appointment
  split_ifs with h1
  · left; rfl
  · split
    · left; rfl
    · rename_i t hfind
      split_ifs with h2
      · left; rfl
      · right
        refine ⟨t, List.mem_of_find?_eq_some hfind, ?_, by simpa using h2, rfl⟩
        have := List.find?_some hfind
        simpa using this

theorem cancel_appointment_snd (f : Bool) (id2 : Nat) (db : DB) :
    (cancel_appointment f id2 db).2 = db ∨
    (cancel_appointment f id2 db).2 =
      { db with appts := db.appts.map (fun a =>
          if a.id == id2 then { a with status := "cancelled" } else a) } := by
  unfold cancel_appointment
  split_ifs
  · left; rfl
  · right; rfl

/-! ### Preservation of well-formedness by the storage operations -/

theorem wf_goc_patient (f : Bool) (n : String) {db : DB} (hwf : DBWF db) :
    DBWF (get_or_create_patient f n db).2 := by
  rcases goc_patient_cases f n db with h | h <;> rw [h]
  · exact hwf
  · refine ⟨?_, ?_, hwf.docIds, hwf.docNodup, hwf.apptIds, hwf.apptNodup,
      hwf.uniqueDS, ?_, hwf.refsD, hwf.canon⟩
    · intro p hp
      rcases List.mem_append.mp hp with hp | hp
      · exact Nat.lt_succ_of_lt (hwf.patIds p hp)
      · simp only [List.mem_singleton] at hp
        subst hp
        exact Nat.lt_succ_self _
    · simp only [List.map_append, List.map_cons, List.map_nil]
      rw [List.nodup_append]
      refine ⟨hwf.patNodup, List.nodup_singleton _, ?_⟩
      intro x hx
      simp only [List.mem_singleton]
      intro he
      rcases List.mem_map.mp hx with ⟨p, hp, rfl⟩
      have := hwf.patIds p hp
      omega
    · intro a ha
      obtain ⟨p, hp, hpe⟩ := hwf.refsP a ha
      exact ⟨p, List.mem_append_left _ hp, hpe⟩

theorem wf_goc_doctor (f : Bool) (n : String) {db : DB} (hwf : DBWF db) :
    DBWF (get_or_create_doctor f n db).2 := by
  rcases goc_doctor_cases f n db with h | h <;> rw [h]
  · exact hwf
  · refine ⟨hwf.patIds, hwf.patNodup, ?_, ?_, hwf.apptIds, hwf.apptNodup,
      hwf.uniqueDS, hwf.refsP, ?_, hwf.canon⟩
    · intro d hd
      rcases List.mem_append.mp hd with hd | hd
      · exact Nat.lt_succ_of_lt (hwf.docIds d hd)
      · simp only [List.mem_singleton] at hd
        subst hd
        exact Nat.lt_succ_self _
    · simp only [List.map_append, List.map_cons, List.map_nil]
      rw [List.nodup_append]
      refine ⟨hwf.docNodup, List.nodup_singleton _, ?_⟩
      intro x hx
      simp only [List.mem_singleton]
      intro he
      rcases List.mem_map.mp hx with ⟨d, hd, rfl⟩
      have := hwf.docIds d hd
      omega
    · intro a ha
      obtain ⟨d, hd, hde⟩ := hwf.refsD a ha
      exact ⟨d, List.mem_append_left _ hd, hde⟩

theorem any_eq_false_forall {l : List ApptRow} {p : ApptRow → Bool}
    (h : l.any p = false) : ∀ a ∈ l, p a = false := by
  intro a ha
  by_contra hc
  have : l.any p = true := List.any_eq_true.mpr ⟨a, ha, by
    cases hp : p a
    · exact absurd hp hc
    · rfl⟩
  rw [this] at h
  cases h

theorem wf_add (f : Bool) {pid did : Nat} {dt now : DateTime} {db : DB}
    (hwf : DBWF db) (hdt : Bounded dt) (hnow : Bounded now)
    (hp : ∃ p ∈ db.patients, p.id = pid) (hd : ∃ d ∈ db.doctors, d.id = did) :
    DBWF (add_appointment f pid did dt now db).2 := by
  rcases add_appointment_cases f pid did dt now db with h | ⟨hg, h⟩ <;> rw [h]
  · exact hwf
  · have hguard := any_eq_false_forall hg
    refine ⟨hwf.patIds, hwf.patNodup, hwf.docIds, hwf.docNodup, ?_, ?_, ?_, ?_, ?_, ?_⟩
    · intro a ha
      rcases List.mem_append.mp ha with ha | ha
      · exact Nat.lt_succ_of_lt (hwf.apptIds a ha)
      · simp only [List.mem_singleton] at ha
        subst ha
        exact Nat.lt_succ_self _
    · simp only [List.map_append, List.map_cons, List.map_nil]
      rw [List.nodup_append]
      refine ⟨hwf.apptNodup, List.nodup_singleton _, ?_⟩
      intro x hx
      simp only [List.mem_singleton]
      intro he
      rcases List.mem_map.mp hx with ⟨a, ha, rfl⟩
      have := hwf.apptIds a ha
      omega
    · rw [List.pairwise_append]
      refine ⟨hwf.uniqueDS, List.pairwise_singleton _ _, ?_⟩
      intro a ha b hb
      simp only [List.mem_singleton] at hb
      subst hb
      have := hguard a ha
      simp only [Bool.and_eq_false_eq_eq_false_or_eq_false, beq_eq_false_iff_ne,
        ne_eq] at this
      rcases this with hne | hne
      · left; simpa using hne
      · right; simpa using hne
    · intro a ha
      rcases List.mem_append.mp ha with ha | ha
      · exact hwf.refsP a ha
      · simp only [List.mem_singleton] at ha
        subst ha
        exact hp
    · intro a ha
      rcases List.mem_append.mp ha with ha | ha
      · exact hwf.refsD a ha
      · simp only [List.mem_singleton] at ha
        subst ha
        exact hd
    · intro a ha
      rcases List.mem_append.mp ha with ha | ha
      · exact hwf.canon a ha
      · simp only [List.mem_singleton] at ha
        subst ha
        exact ⟨canon_fmtISO hdt, canon_fmtISO hnow⟩

end SchedSys

namespace SchedSys

open DatabaseManager

theorem eq_of_id_eq {l : List ApptRow} (hn : (l.map ApptRow.id).Nodup)
    {a b : ApptRow} (ha : a ∈ l) (hb : b ∈ l) (he : a.id = b.id) : a = b := by
  have h1 := find_key_eq ApptRow.id l a.id hn ha rfl
  have h2 := find_key_eq ApptRow.id l a.id hn hb he.symm
  rw [h1] at h2
  exact Option.some.inj h2

theorem upd_dt_id (id2 : Nat) (txt : String) (a : ApptRow) :
    (if a.id == id2 then { a with dtText := txt } else a).id = a.id := by
  split <;> rfl

theorem upd_dt_patientId (id2 : Nat) (txt : String) (a : ApptRow) :
    (if a.id == id2 then { a with dtText := txt } else a).patientId = a.patientId := by
  split <;> rfl

theorem upd_dt_doctorId (id2 : Nat) (txt : String) (a : ApptRow) :
    (if a.id == id2 then { a with dtText := txt } else a).doctorId = a.doctorId := by
  split <;> rfl

theorem upd_dt_createdAt (id2 : Nat) (txt : String) (a : ApptRow) :
    (if a.id == id2 then { a with dtText := txt } else a).createdAt = a.createdAt := by
  split <;> rfl

theorem upd_st_id (id2 : Nat) (st : String) (a : ApptRow) :
    (if a.id == id2 then { a with status := st } else a).id = a.id := by
  split <;> rfl

theorem upd_st_patientId (id2 : Nat) (st : String) (a : ApptRow) :
    (if a.id == id2 then { a with status := st } else a).patientId = a.patientId := by
  split <;> rfl

theorem upd_st_doctorId (id2 : Nat) (st : String) (a : ApptRow) :
    (if a.id == id2 then { a with status := st } else a).doctorId = a.doctorId := by
  split <;> rfl

theorem upd_st_dtText (id2 : Nat) (st : String) (a : ApptRow) :
    (if a.id == id2 then { a with status := st } else a).dtText = a.dtText := by
  split <;> rfl

theorem upd_st_createdAt (id2 : Nat) (st : String) (a : ApptRow) :
    (if a.id == id2 then { a with status := st } else a).createdAt = a.createdAt := by
  split <;> rfl

theorem wf_reschedule_db (f : Bool) (id2 : Nat) {dt : DateTime} {db : DB}
    (hwf : DBWF db) (hdt : Bounded dt) :
    DBWF (reschedule_appointment f id2 dt db).2 := by
  rcases reschedule_appointment_cases f id2 dt db with h | ⟨t, ht, htid, hg, h⟩ <;> rw [h]
  · exact hwf
  · have hguard := any_eq_false_forall hg
    have hidpair : db.appts.Pairwise (fun a b => a.id ≠ b.id) :=
      List.pairwise_map.mp hwf.apptNodup
    refine ⟨hwf.patIds, hwf.patNodup, hwf.docIds, hwf.docNodup, ?_, ?_, ?_, ?_, ?_, ?_⟩
    · intro x hx
      rcases List.mem_map.mp hx with ⟨a, ha, rfl⟩
      rw [upd_dt_id]
      exact hwf.apptIds a ha
    · have hm : (db.appts.map (fun a =>
          if a.id == id2 then { a with dtText := fmtISO dt } else a)).map ApptRow.id =
          db.appts.map ApptRow.id := by
        rw [List.map_map]
        exact List.map_congr_left (fun a _ => upd_dt_id id2 (fmtISO dt) a)
      rw [hm]
      exact hwf.apptNodup
    · rw [List.pairwise_map]
      have hcomb := List.Pairwise.and hidpair hwf.uniqueDS
      refine hcomb.imp_of_mem ?_
      intro a b ha hb hab
      obtain ⟨hid, hrel⟩ := hab
      by_cases ha2 : a.id = id2
      · have hat : a = t := eq_of_id_eq hwf.apptNodup ha ht (by rw [ha2, htid])
        have hb2 : b.id ≠ id2 := by rw [← ha2]; exact fun he => hid he.symm
        have hbg := hguard b hb
        simp only [Bool.and_eq_false_eq_eq_false_or_eq_false, bne_eq_false_iff_eq,
          beq_eq_false_iff_ne, ne_eq] at hbg
        rw [if_pos (by simp [ha2]), if_neg (by simp [hb2])]
        subst hat
        rcases hbg with (hbg | hbg) | hbg
        · exact absurd hbg hb2
        · left
          show a.doctorId ≠ b.doctorId
          exact fun he => hbg he.symm
        · right
          show fmtISO dt ≠ b.dtText
          exact fun he => hbg he.symm
      · by_cases hb2 : b.id = id2
        · have hbt : b = t := eq_of_id_eq hwf.apptNodup hb ht (by rw [hb2, htid])
          have hag := hguard a ha
          simp only [Bool.and_eq_false_eq_eq_false_or_eq_false, bne_eq_false_iff_eq,
            beq_eq_false_iff_ne, ne_eq] at hag
          rw [if_neg (by simp [ha2]), if_pos (by simp [hb2])]
          subst hbt
          rcases hag with (hag | hag) | hag
          · exact absurd hag ha2
          · left
            show a.doctorId ≠ b.doctorId
            exact hag
          · right
            show a.dtText ≠ fmtISO dt
            exact hag
        · rw [if_neg (by simp [ha2]), if_neg (by simp [hb2])]
          exact hrel
    · intro x hx
      rcases List.mem_map.mp hx with ⟨a, ha, rfl⟩
      rw [upd_dt_patientId]
      exact hwf.refsP a ha
    · intro x hx
      rcases List.mem_map.mp hx with ⟨a, ha, rfl⟩
      rw [upd_dt_doctorId]
      exact hwf.refsD a ha
    · intro x hx
      rcases List.mem_map.mp hx with ⟨a, ha, rfl⟩
      rw [upd_dt_createdAt]
      refine ⟨?_, (hwf.canon a ha).2⟩
      by_cases ha2 : a.id == id2
      · rw [if_pos ha2]
        exact canon_fmtISO hdt
      · rw [if_neg ha2]
        exact (hwf.canon a ha).1
theorem wf_cancel_db (f : Bool) (id2 : Nat) {db : DB} (hwf : DBWF db) :
    DBWF (cancel_appointment f id2 db).2 := by
  rcases cancel_appointment_snd f id2 db with h | h <;> rw [h]
  · exact hwf
  · refine ⟨hwf.patIds, hwf.patNodup, hwf.docIds, hwf.docNodup, ?_, ?_, ?_, ?_, ?_, ?_⟩
    · intro x hx
      rcases List.mem_map.mp hx with ⟨a, ha, rfl⟩
      rw [upd_st_id]
      exact hwf.apptIds a ha
    · have hm : (db.appts.map (fun a =>
          if a.id == id2 then { a with status := "cancelled" } else a)).map ApptRow.id =
          db.appts.map ApptRow.id := by
        rw [List.map_map]
        exact List.map_congr_left (fun a _ => upd_st_id id2 "cancelled" a)
      rw [hm]
      exact hwf.apptNodup
    · rw [List.pairwise_map]
      refine hwf.uniqueDS.imp ?_
      intro a b hrel
      rw [upd_st_doctorId, upd_st_doctorId, upd_st_dtText, upd_st_dtText]
      exact hrel
    · intro x hx
      rcases List.mem_map.mp hx with ⟨a, ha, rfl⟩
      rw [upd_st_patientId]
      exact hwf.refsP a ha
    · intro x hx
      rcases List.mem_map.mp hx with ⟨a, ha, rfl⟩
      rw [upd_st_doctorId]
      exact hwf.refsD a ha
    · intro x hx
      rcases List.mem_map.mp hx with ⟨a, ha, rfl⟩
      rw [upd_st_dtText, upd_st_createdAt]
      exact hwf.canon a ha

end SchedSys

namespace SchedSys

open DatabaseManager

/-! ### Well-formedness through the scheduler operations -/

theorem wf_book (f : Bool) (pn dn ds ts : String) {now : DateTime} {db : DB}
    (hwf : DBWF db) (hnow : Bounded now) :
    DBWF (Scheduler.book_appointment f pn dn ds ts now db).2 := by
  unfold Scheduler.book_appointment
  split_ifs
  · exact hwf
  · split
    · exact hwf
    · rename_i dt hparse
      split
      · exact hwf
      · split
        · rename_i m db1 heq1
          have e1 : db1 = (get_or_create_patient f (pyStrip pn) db).2 := by rw [heq1]
          rw [e1]
          exact wf_goc_patient f (pyStrip pn) hwf
        · rename_i e db1 heq1 hne
          have e1 : db1 = (get_or_create_patient f (pyStrip pn) db).2 := by rw [hne]
          rw [e1]
          exact wf_goc_patient f (pyStrip pn) hwf
        · rename_i pid db1 heq1
          have e1 : db1 = (get_or_create_patient f (pyStrip pn) db).2 := by rw [heq1]
          have hwf1 : DBWF db1 := e1 ▸ wf_goc_patient f (pyStrip pn) hwf
          split
          · rename_i m db2 heq2
            have e2 : db2 = (get_or_create_doctor f (pyStrip dn) db1).2 := by rw [heq2]
            rw [e2]
            exact wf_goc_doctor f (pyStrip dn) hwf1
          · rename_i e db2 heq2 hne
            have e2 : db2 = (get_or_create_doctor f (pyStrip dn) db1).2 := by rw [hne]
            rw [e2]
            exact wf_goc_doctor f (pyStrip dn) hwf1
          · rename_i did db2 heq2
            have e2 : db2 = (get_or_create_doctor f (pyStrip dn) db1).2 := by rw [heq2]
            have hwf2 : DBWF db2 := e2 ▸ wf_goc_doctor f (pyStrip dn) hwf1
            split
            · rename_i e db3 heq3
              have e3 : db3 = db2 := by
                have := congrArg Prod.snd heq3
                simp only [check_conflict_snd] at this
                exact this.symm
              rw [e3]
              exact hwf2
            · rename_i db3 heq3
              have e3 : db3 = db2 := by
                have := congrArg Prod.snd heq3
                simp only [check_conflict_snd] at this
                exact this.symm
              rw [e3]
              exact hwf2
            · rename_i db3 heq3
              have e3 : db3 = db2 := by
                have := congrArg Prod.snd heq3
                simp only [check_conflict_snd] at this
                exact this.symm
              have hwf3 : DBWF db3 := e3 ▸ hwf2
              have hdt : Bounded dt := parse_datetime_bounded hparse
              have hpid : ∃ p ∈ db3.patients, p.id = pid := by
                obtain ⟨p, hp, hpe⟩ := goc_patient_ok heq1
                refine ⟨p, ?_, hpe⟩
                rw [e3, e2]
                rw [(goc_doctor_patients f (pyStrip dn) db1).1]
                exact hp
              have hdid : ∃ d ∈ db3.doctors, d.id = did := by
                obtain ⟨d, hd, hde⟩ := goc_doctor_ok heq2
                rw [e3]
                exact ⟨d, hd, hde⟩
              split
              · rename_i i db4 heq4
                have e4 : db4 = (add_appointment f pid did dt now db3).2 := by rw [heq4]
                rw [e4]
                exact wf_add f hwf3 hdt hnow hpid hdid
              · rename_i m db4 heq4
                have e4 : db4 = (add_appointment f pid did dt now db3).2 := by rw [heq4]
                rw [e4]
                exact wf_add f hwf3 hdt hnow hpid hdid
              · rename_i e db4 heq4 hne
                have e4 : db4 = (add_appointment f pid did dt now db3).2 := by rw [hne]
                rw [e4]
                exact wf_add f hwf3 hdt hnow hpid hdid

theorem wf_reschedule (f : Bool) (id2 : Nat) (ds ts : String) {now : DateTime}
    {db : DB} (hwf : DBWF db) :
    DBWF (Scheduler.reschedule f id2 ds ts now db).2 := by
  unfold Scheduler.reschedule
  split
  · exact hwf
  · rename_i dt hparse
    split
    · exact hwf
    · have hdt : Bounded dt := parse_datetime_bounded hparse
      split
      · rename_i db1 heq1
        have e1 : db1 = (reschedule_appointment f id2 dt db).2 := by rw [heq1]
        rw [e1]
        exact wf_reschedule_db f id2 hwf hdt
      · rename_i m db1 heq1
        have e1 : db1 = (reschedule_appointment f id2 dt db).2 := by rw [heq1]
        rw [e1]
        exact wf_reschedule_db f id2 hwf hdt
      · rename_i e db1 heq1 hne
        have e1 : db1 = (reschedule_appointment f id2 dt db).2 := by rw [hne]
        rw [e1]
        exact wf_reschedule_db f id2 hwf hdt

theorem wf_cancel (f : Bool) (id2 : Nat) {db : DB} (hwf : DBWF db) :
    DBWF (Scheduler.cancel f id2 db).2 := by
  unfold Scheduler.cancel
  exact wf_cancel_db f id2 hwf

theorem wf_empty : DBWF DB.empty := by
  refine ⟨?_, ?_, ?_, ?_, ?_, ?_, ?_, ?_, ?_, ?_⟩ <;> simp [DB.empty]

/-- Every reachable database state is well formed. -/
theorem reachable_wf {db : DB} (h : Reachable db) : DBWF db := by
  induction h with
  | empty => exact wf_empty
  | book db2 f pn dn ds ts now h hnow ih => exact wf_book f pn dn ds ts ih hnow
  | reschedule db2 f id2 ds ts now h hnow ih => exact wf_reschedule f id2 ds ts ih
  | cancel db2 f id2 h ih => exact wf_cancel f id2 ih
  | getAppts db2 h ih => exact ih

end SchedSys

namespace SchedSys

open DatabaseManager

/-! ### The SQL pipeline of `get_appointments` -/

theorem joinRow_some {db : DB} {a : ApptRow} {j : JoinedRow}
    (h : joinRow db a = some j) :
    j.appt = a ∧ (∃ p ∈ db.patients, p.id = a.patientId ∧ j.pname = p.name) ∧
    (∃ d ∈ db.doctors, d.id = a.doctorId ∧ j.dname = d.name) := by
  unfold joinRow at h
  split at h
  · rename_i p0 d0 hp hd
    simp only [Option.some.injEq] at h
    subst h
    refine ⟨rfl, ⟨p0, List.mem_of_find?_eq_some hp, ?_, rfl⟩,
      ⟨d0, List.mem_of_find?_eq_some hd, ?_, rfl⟩⟩
    · have := List.find?_some hp
      simpa using this
    · have := List.find?_some hd
      simpa using this
  · cases h

theorem joinRow_total {db : DB} {a : ApptRow} {p d : PersonRow}
    (hpn : (db.patients.map PersonRow.id).Nodup)
    (hdn : (db.doctors.map PersonRow.id).Nodup)
    (hpm : p ∈ db.patients) (hpe : p.id = a.patientId)
    (hdm : d ∈ db.doctors) (hde : d.id = a.doctorId) :
    joinRow db a = some ⟨a, p.name, d.name⟩ := by
  unfold joinRow
  rw [find_key_eq PersonRow.id db.patients a.patientId hpn hpm hpe,
      find_key_eq PersonRow.id db.doctors a.doctorId hdn hdm hde]

theorem mem_sqlRows {db : DB} {j : JoinedRow} :
    j ∈ sqlRows db ↔ (∃ a ∈ db.appts, joinRow db a = some j) ∧ j.appt.status = "booked" := by
  unfold sqlRows
  rw [List.mem_filter, List.mem_filterMap]
  simp only [beq_iff_eq]

theorem sqlRows_appt_mem {db : DB} {j : JoinedRow} (h : j ∈ sqlRows db) :
    j.appt ∈ db.appts ∧ j.appt.status = "booked" := by
  obtain ⟨⟨a, ha, hj⟩, hst⟩ := mem_sqlRows.mp h
  have := (joinRow_some hj).1
  exact ⟨this ▸ ha, hst⟩

theorem mem_nameFilter {dn : Option String} {l : List JoinedRow} {j : JoinedRow}
    (h : j ∈ nameFilter dn l) :
    j ∈ l ∧ (∀ n, dn = some n → n ≠ "" → j.dname = n) := by
  cases dn with
  | none =>
    simp only [nameFilter] at h
    exact ⟨h, fun n hn => by cases hn⟩
  | some n0 =>
    simp only [nameFilter] at h
    by_cases h0 : n0 = ""
    · rw [if_pos h0] at h
      refine ⟨h, fun n hn hne => ?_⟩
      injection hn with hn
      subst hn
      exact absurd h0 hne
    · rw [if_neg h0] at h
      have := List.mem_filter.mp h
      refine ⟨this.1, fun n hn hne => ?_⟩
      injection hn with hn
      subst hn
      simpa using this.2

theorem mem_nameFilter_of (dn : Option String) {l : List JoinedRow} {j : JoinedRow}
    (hj : j ∈ l) (hname : ∀ n, dn = some n → n ≠ "" → j.dname = n) :
    j ∈ nameFilter dn l := by
  cases dn with
  | none =>
    simp only [nameFilter]
    exact hj
  | some n0 =>
    simp only [nameFilter]
    by_cases h0 : n0 = ""
    · rw [if_pos h0]
      exact hj
    · rw [if_neg h0]
      refine List.mem_filter.mpr ⟨hj, ?_⟩
      have := hname n0 rfl h0
      simp [this]

theorem mem_limitTake {limit : Int} {l : List JoinedRow} {j : JoinedRow}
    (h : j ∈ limitTake limit l) : j ∈ l := by
  unfold limitTake at h
  split_ifs at h
  · exact h
  · exact (List.take_sublist _ _).mem h

theorem limitTake_sublist (limit : Int) (l : List JoinedRow) :
    (limitTake limit l).Sublist l := by
  unfold limitTake
  split_ifs
  · exact List.Sublist.refl l
  · exact List.take_sublist _ _

theorem limitTake_all {limit : Int} {l : List JoinedRow}
    (h : l.length ≤ limit.toNat ∨ limit < 0) : limitTake limit l = l := by
  unfold limitTake
  split_ifs with h1
  · rfl
  · rcases h with h | h
    · exact List.take_of_length_le h
    · exact absurd h h1

theorem limitTake_length {limit : Int} (hl : 0 ≤ limit) (l : List JoinedRow) :
    (limitTake limit l).length ≤ limit.toNat := by
  unfold limitTake
  rw [if_neg (by omega)]
  simp [List.length_take]

theorem sqlRows_length_aux (db : DB) (l : List ApptRow) :
    ((l.filterMap (joinRow db)).filter (fun j => j.appt.status == "booked")).length ≤
      (l.filter (fun a => a.status == "booked")).length := by
  induction l with
  | nil => simp
  | cons a as ih =>
    rw [List.filterMap_cons]
    cases hj : joinRow db a with
    | none =>
      rw [List.filter_cons]
      split_ifs
      · simpa using Nat.le_succ_of_le ih
      · exact ih
    | some j =>
      have hja : j.appt = a := (joinRow_some hj).1
      rw [List.filter_cons, List.filter_cons, hja]
      split_ifs
      · simpa using ih
      · exact ih

theorem sqlRows_length_le (db : DB) :
    (sqlRows db).length ≤ (db.appts.filter (fun a => a.status == "booked")).length :=
  sqlRows_length_aux db db.appts

theorem nameFilter_length_le (dn : Option String) (l : List JoinedRow) :
    (nameFilter dn l).length ≤ l.length := by
  cases dn with
  | none =>
    simp only [nameFilter]
    exact le_refl _
  | some n0 =>
    simp only [nameFilter]
    split_ifs
    · exact le_refl _
    · exact List.length_filter_le _ _

theorem mapM_rowOut {l : List JoinedRow}
    (h : ∀ j ∈ l, Canon j.appt.dtText ∧ Canon j.appt.createdAt) :
    l.mapM rowOut = .ok (l.map rowOutTotal) := by
  induction l with
  | nil => rfl
  | cons x xs ih =>
    obtain ⟨hc1, hc2⟩ := h x (List.mem_cons_self x xs)
    obtain ⟨d1, hb1, hp1, hf1⟩ := hc1.parse
    obtain ⟨d2, hb2, hp2, hf2⟩ := hc2.parse
    rw [List.mapM_cons, ih (fun j hj => h j (List.mem_cons_of_mem _ hj))]
    unfold rowOut
    rw [hp1, hp2]
    simp only [bind, Except.bind, pure, Except.pure, List.map_cons, rowOutTotal,
      hp1, hp2, Option.getD_some]

/-- Combined description of a successful `get_appointments` read on a
well-formed state: the returned rows are the canonical conversion of a list
of joined rows that is sound, sorted, capped, and complete when the limit
covers every booked appointment. -/
theorem get_appointments_spec {db : DB} (hwf : DBWF db) (limit : Int)
    (dn : Option String) :
    ∃ l : List JoinedRow,
      DatabaseManager.get_appointments false limit dn db = .ok (l.map rowOutTotal) ∧
      (∀ j ∈ l, j ∈ sqlRows db ∧ (∀ n, dn = some n → n ≠ "" → j.dname = n)) ∧
      l.Pairwise (fun u v => textLe u.appt.dtText.data v.appt.dtText.data = true) ∧
      (0 ≤ limit → l.length ≤ limit.toNat) ∧
      ((db.appts.filter (fun a => a.status == "booked")).length ≤ limit.toNat →
        ∀ j ∈ sqlRows db, (∀ n, dn = some n → n ≠ "" → j.dname = n) → j ∈ l) := by
  refine ⟨limitTake limit (sortByText (nameFilter dn (sqlRows db))), ?_, ?_, ?_, ?_, ?_⟩
  · unfold DatabaseManager.get_appointments
    rw [if_neg (by simp)]
    refine mapM_rowOut ?_
    intro j hj
    have hj2 : j ∈ sqlRows db :=
      (mem_nameFilter (mem_sortByText.mp (mem_limitTake hj))).1
    exact hwf.canon j.appt (sqlRows_appt_mem hj2).1
  · intro j hj
    have h1 := mem_nameFilter (mem_sortByText.mp (mem_limitTake hj))
    exact ⟨h1.1, h1.2⟩
  · exact List.Pairwise.sublist (limitTake_sublist _ _) (pairwise_sortByText _)
  · intro hl
    exact limitTake_length hl _
  · intro hcount j hj hname
    have hmem : j ∈ sortByText (nameFilter dn (sqlRows db)) :=
      mem_sortByText.mpr (mem_nameFilter_of dn hj hname)
    have hlen : (sortByText (nameFilter dn (sqlRows db))).length ≤ limit.toNat := by
      rw [length_sortByText]
      calc (nameFilter dn (sqlRows db)).length
          ≤ (sqlRows db).length := nameFilter_length_le dn _
        _ ≤ (db.appts.filter (fun a => a.status == "booked")).length := sqlRows_length_le db
        _ ≤ limit.toNat := hcount
    rw [limitTake_all (Or.inl hlen)]
    exact hmem

end SchedSys

namespace SchedSys

open DatabaseManager

/-! ### Error shapes of the scheduler helpers -/

theorem parse_datetime_err {ds ts : String} {e : PyErr}
    (h : Scheduler.parse_datetime ds ts = .error e) : IsSchedErr e := by
  unfold Scheduler.parse_datetime at h
  split at h
  · exact absurd h (by simp)
  · simp only [Except.error.injEq] at h
    subst h
    trivial

theorem validate_err {dt now : DateTime} {e : PyErr}
    (h : Scheduler.validate_slot_and_business_hours dt now = .error e) : IsSchedErr e := by
  unfold Scheduler.validate_slot_and_business_hours at h
  split_ifs at h <;> simp only [Except.error.injEq] at h <;> subst h <;> trivial

theorem goc_patient_false_err {n : String} {db : DB} {e : PyErr} {db2 : DB}
    (h : get_or_create_patient false n db = (.error e, db2)) :
    e = .databaseError "Patient name cannot be empty." ∧ db2 = db := by
  unfold get_or_create_patient at h
  rw [if_neg (by simp)] at h
  split_ifs at h
  · simp only [Prod.mk.injEq, Except.error.injEq] at h
    exact ⟨h.1.symm, h.2.symm⟩
  · split at h <;> exact absurd h (by simp)

theorem goc_doctor_false_err {n : String} {db : DB} {e : PyErr} {db2 : DB}
    (h : get_or_create_doctor false n db = (.error e, db2)) :
    e = .databaseError "Doctor name cannot be empty." ∧ db2 = db := by
  unfold get_or_create_doctor at h
  rw [if_neg (by simp)] at h
  split_ifs at h
  · simp only [Prod.mk.injEq, Except.error.injEq] at h
    exact ⟨h.1.symm, h.2.symm⟩
  · split at h <;> exact absurd h (by simp)

theorem goc_patient_false_ok {n : String} (hn : pyStrip n ≠ "") (db : DB) :
    ∃ pid db2, get_or_create_patient false n db = (.ok pid, db2) := by
  unfold get_or_create_patient
  rw [if_neg (by simp), if_neg hn]
  split
  · exact ⟨_, _, rfl⟩
  · exact ⟨_, _, rfl⟩

theorem goc_doctor_false_of_empty {n : String} (hn : pyStrip n = "") (db : DB) :
    get_or_create_doctor false n db =
      (.error (.databaseError "Doctor name cannot be empty."), db) := by
  unfold get_or_create_doctor
  rw [if_neg (by simp), if_pos hn]

theorem goc_patient_false_of_empty {n : String} (hn : pyStrip n = "") (db : DB) :
    get_or_create_patient false n db =
      (.error (.databaseError "Patient name cannot be empty."), db) := by
  unfold get_or_create_patient
  rw [if_neg (by simp), if_pos hn]

theorem check_conflict_false (did : Nat) (dt : DateTime) (db : DB) :
    check_conflict false did dt db =
      (.ok (db.appts.any fun a =>
        a.doctorId == did && a.dtText == fmtISO dt && a.status == "booked"), db) := by
  unfold check_conflict
  rw [if_neg (by simp)]

theorem add_ok {f : Bool} {pid did : Nat} {dt now : DateTime} {db : DB}
    {i : Nat} {db2 : DB}
    (h : add_appointment f pid did dt now db = (.ok i, db2)) :
    i = db.nextApptId ∧
    db2 = { db with
      appts := db.appts ++ [⟨db.nextApptId, pid, did, fmtISO dt, "booked", fmtISO now⟩],
      nextApptId := db.nextApptId + 1 } := by
  unfold add_appointment at h
  split_ifs at h
  · exact absurd h (by simp)
  · exact absurd h (by simp)
  · simp only [Prod.mk.injEq, Except.ok.injEq] at h
    exact ⟨h.1.symm, h.2.symm⟩

theorem add_false_err {pid did : Nat} {dt now : DateTime} {db : DB}
    {e : PyErr} {db2 : DB}
    (h : add_appointment false pid did dt now db = (.error e, db2)) :
    e = .databaseError "Conflict: doctor already has an appointment at that time." ∧
    db2 = db := by
  unfold add_appointment at h
  rw [if_neg (by simp)] at h
  split_ifs at h
  · simp only [Prod.mk.injEq, Except.error.injEq] at h
    exact ⟨h.1.symm, h.2.symm⟩
  · exact absurd h (by simp)

theorem reschedule_false_err {id2 : Nat} {dt : DateTime} {db : DB}
    {e : PyErr} {db2 : DB}
    (h : reschedule_appointment false id2 dt db = (.error e, db2)) :
    e = .databaseError "Conflict when rescheduling: doctor already booked at that time." ∧
    db2 = db := by
  unfold reschedule_appointment at h
  rw [if_neg (by simp)] at h
  split at h
  · exact absurd h (by simp)
  · split_ifs at h
    · simp only [Prod.mk.injEq, Except.error.injEq] at h
      exact ⟨h.1.symm, h.2.symm⟩
    · exact absurd h (by simp)

theorem person_eq_of_id_eq {l : List PersonRow} (hn : (l.map PersonRow.id).Nodup)
    {a b : PersonRow} (ha : a ∈ l) (hb : b ∈ l) (he : a.id = b.id) : a = b := by
  have h1 := find_key_eq PersonRow.id l a.id hn ha rfl
  have h2 := find_key_eq PersonRow.id l a.id hn hb he.symm
  rw [h1] at h2
  exact Option.some.inj h2

/-- A successful booking inserts exactly one new row: status `booked`, the
slot text of the parsed datetime, and `created_at` from the wall clock. -/
theorem book_ok_row {f : Bool} {pn dn ds ts : String} {now dt : DateTime}
    {db db4 : DB} {i : Nat}
    (hparse : Scheduler.parse_datetime ds ts = .ok dt)
    (hbook : Scheduler.book_appointment f pn dn ds ts now db = (.ok i, db4)) :
    ∃ a ∈ db4.appts, a.id = i ∧ a.dtText = fmtISO dt ∧ a.status = "booked" ∧
      a.createdAt = fmtISO now := by
  unfold Scheduler.book_appointment at hbook
  split_ifs at hbook
  case pos => exact absurd hbook (by simp)
  case neg =>
    split at hbook
    · exact absurd hbook (by simp)
    · rename_i dt0 heqp
      rw [hparse] at heqp
      injection heqp with heqp
      subst heqp
      split at hbook
      · exact absurd hbook (by simp)
      · split at hbook
        · exact absurd hbook (by simp)
        · exact absurd hbook (by simp)
        · split at hbook
          · exact absurd hbook (by simp)
          · exact absurd hbook (by simp)
          · split at hbook
            · exact absurd hbook (by simp)
            · exact absurd hbook (by simp)
            · split at hbook
              · rename_i i0 db40 heq4
                simp only [Prod.mk.injEq, Except.ok.injEq] at hbook
                obtain ⟨hi, hdb⟩ := hbook
                subst hi hdb
                obtain ⟨hio, hdbo⟩ := add_ok heq4
                subst hio hdbo
                refine ⟨_, List.mem_append_right _ (List.mem_singleton_self _),
                  rfl, rfl, rfl, rfl⟩
              · exact absurd hbook (by simp)
              · exact absurd hbook (by simp)

end SchedSys

namespace SchedSys

open DatabaseManager

/-! ### Reachability of the concrete scenario states -/

theorem cancel_false_snd (id2 : Nat) (db : DB) :
    (Scheduler.cancel false id2 db).2 =
      { db with appts := db.appts.map (fun a =>
          if a.id == id2 then { a with status := "cancelled" } else a) } := rfl

theorem reachable_dbAlice : Reachable dbAlice :=
  Reachable.book DB.empty false "Alice" "Dr. Smith" "2030-01-07" "10:00" nowEarly
    Reachable.empty (by decide)

theorem reachable_dbAliceBob : Reachable dbAliceBob :=
  Reachable.book dbAlice false "Bob" "Dr. Smith" "2030-01-07" "10:30" nowEarly
    reachable_dbAlice (by decide)

/-! ### Claim theorems -/

/-- C5: slot validation (shared by `bookAppointment` and `reschedule`)
succeeds exactly when the minute is 0 or 30, the hour lies in the business
window `[9, 17)` (so 16:30 is the last valid start, 17:00 is rejected, and
any `:15` slot is rejected), and the slot is strictly later than the
current time; every failure is a `SchedulingError` (`InvalidInput`). -/
theorem c5_slot_validation (dt now : DateTime) :
    (Scheduler.validate_slot_and_business_hours dt now = .ok () ↔
      ((dt.minute = 0 ∨ dt.minute = 30) ∧ 9 ≤ dt.hour ∧ dt.hour < 17 ∧
        DateTime.le dt now = false)) ∧
    (Scheduler.validate_slot_and_business_hours dt now = .ok () ∨
      ∃ m, Scheduler.validate_slot_and_business_hours dt now =
        .error (.schedulingError m)) := by
  unfold Scheduler.validate_slot_and_business_hours
  split_ifs with h1 h2 h3
  · refine ⟨?_, Or.inr ⟨_, rfl⟩⟩
    simp only [Scheduler.SLOT_MINUTES] at h1
    simp at h1
    constructor
    · intro h
      exact absurd h (by simp)
    · rintro ⟨hm | hm, _⟩
      · exact h1.1 hm
      · exact h1.2 hm
  · refine ⟨?_, Or.inr ⟨_, rfl⟩⟩
    simp [Scheduler.WORK_START, Scheduler.WORK_END] at h2
    constructor
    · intro h
      exact absurd h (by simp)
    · rintro ⟨_, hh1, hh2, _⟩
      rcases h2.1 with hh | hh <;> omega
  · refine ⟨?_, Or.inr ⟨_, rfl⟩⟩
    constructor
    · intro h
      exact absurd h (by simp)
    · rintro ⟨_, _, _, hle⟩
      rw [hle] at h3
      cases h3
  · refine ⟨?_, Or.inl rfl⟩
    simp only [Scheduler.SLOT_MINUTES] at h1
    simp at h1
    simp [Scheduler.WORK_START, Scheduler.WORK_END] at h2
    simp at h3
    refine ⟨fun _ => ⟨?_, ?_, ?_, h3⟩, fun _ => rfl⟩
    · by_cases hm : dt.minute = 0
      · exact Or.inl hm
      · exact Or.inr (h1 hm)
    · by_cases hh : dt.hour < 9
      · have := h2 (Or.inl hh)
        omega
      · omega
    · by_cases hh : 17 ≤ dt.hour
      · have := h2 (Or.inr hh)
        omega
      · omega

/-- C7: `cancel` is idempotent and total on ids: it raises no error, a
second cancel raises no error and changes nothing more, every stored
appointment with the given id ends up with status `cancelled`, and
cancelling an id that matches no stored appointment leaves the store
unchanged. -/
theorem c7_cancel_idempotent (id2 : Nat) (db : DB) :
    (Scheduler.cancel false id2 db).1 = .ok () ∧
    (Scheduler.cancel false id2 (Scheduler.cancel false id2 db).2).1 = .ok () ∧
    (Scheduler.cancel false id2 (Scheduler.cancel false id2 db).2).2 =
      (Scheduler.cancel false id2 db).2 ∧
    (∀ a ∈ (Scheduler.cancel false id2 db).2.appts, a.id = id2 →
      a.status = "cancelled") ∧
    ((∀ a ∈ db.appts, a.id ≠ id2) → (Scheduler.cancel false id2 db).2 = db) := by
  refine ⟨rfl, rfl, ?_, ?_, ?_⟩
  · simp only [cancel_false_snd]
    congr 1
    rw [List.map_map]
    refine List.map_congr_left ?_
    intro a _
    by_cases h : a.id == id2 <;> simp [Function.comp, h]
  · rw [cancel_false_snd]
    dsimp only
    intro a ha hid
    rcases List.mem_map.mp ha with ⟨a0, ha0, rfl⟩
    by_cases h : a0.id == id2
    · rw [if_pos h]
    · rw [if_neg h] at hid ⊢
      exact absurd (by simp [hid]) h
  · intro hmiss
    rw [cancel_false_snd]
    have hmap : db.appts.map (fun a =>
        if a.id == id2 then { a with status := "cancelled" } else a) = db.appts := by
      have h2 : db.appts.map (fun a =>
          if a.id == id2 then { a with status := "cancelled" } else a) =
          db.appts.map (fun a => a) :=
        List.map_congr_left (fun a ha => by
          rw [if_neg (by simpa using hmiss a ha)])
      rw [h2, List.map_id']
    rw [hmap]

/-- C10: rescheduling with a well-formed, valid future slot and an id that
matches no stored appointment raises no error and leaves the store entirely
unchanged; the caller receives no indication that the id did not exist. -/
theorem c10_reschedule_missing_id (id2 : Nat) (ds ts : String) (now : DateTime)
    (db : DB) (dt : DateTime)
    (hp : Scheduler.parse_datetime ds ts = .ok dt)
    (hv : Scheduler.validate_slot_and_business_hours dt now = .ok ())
    (hmissing : ∀ a ∈ db.appts, a.id ≠ id2) :
    Scheduler.reschedule false id2 ds ts now db = (.ok (), db) := by
  have hfind : db.appts.find? (fun a => a.id == id2) = none :=
    List.find?_eq_none.mpr (fun a ha => by simpa using hmissing a ha)
  have hres : DatabaseManager.reschedule_appointment false id2 dt db = (.ok (), db) := by
    unfold DatabaseManager.reschedule_appointment
    rw [if_neg (by simp), hfind]
  unfold Scheduler.reschedule
  split
  · rename_i e heq
    rw [hp] at heq
    exact absurd heq (by simp)
  · rename_i dt0 heq
    rw [hp] at heq
    injection heq with heq
    subst heq
    split
    · rename_i e heq2
      rw [hv] at heq2
      exact absurd heq2 (by simp)
    · rw [hres]

/-- C3: in every reachable storage state there are no two distinct
appointments for the same doctor and the same stored slot text that are
both `booked` (the no-double-booking invariant). -/
theorem c3_no_double_booking {db : DB} (h : Reachable db) :
    ∀ A ∈ db.appts, ∀ B ∈ db.appts, A.id ≠ B.id → A.status = "booked" →
      B.status = "booked" → A.doctorId = B.doctorId → A.dtText ≠ B.dtText := by
  have hwf := reachable_wf h
  intro A hA B hB hne hsA hsB hdoc
  have hsym : Symmetric (fun a b : ApptRow => a.doctorId ≠ b.doctorId ∨ a.dtText ≠ b.dtText) :=
    fun a b hab => hab.imp Ne.symm Ne.symm
  have hAB : A ≠ B := fun he => hne (he ▸ rfl)
  have := List.Pairwise.forall hsym hwf.uniqueDS hA hB hAB
  rcases this with hd | ht
  · exact absurd hdoc hd
  · exact ht

/-- C1 (code bug): after booking and then cancelling the only appointment
for (Dr. Smith, 2030-01-07 10:00), rebooking the same doctor and slot with
valid inputs fails with the insert-time Conflict error, because the
`UNIQUE (doctor_id, appointment_datetime)` constraint is not scoped to
non-cancelled rows; the spec (and the pre-check, which is scoped to
`status = 'booked'`) requires this booking to succeed. -/
theorem c1_cancelled_blocks_rebooking :
    (Scheduler.cancel false 1 dbAlice).1 = .ok () ∧
    dbAliceCancelled.appts =
      [⟨1, 1, 1, "2030-01-07T10:00:00", "cancelled", "2020-01-01T00:00:00"⟩] ∧
    (DatabaseManager.check_conflict false 1 ⟨2030, 1, 7, 10, 0, 0⟩
      dbAliceCancelled).1 = .ok false ∧
    (Scheduler.book_appointment false "Bob" "Dr. Smith" "2030-01-07" "10:00"
        nowEarly dbAliceCancelled).1 =
      .error (.schedulingError "Conflict: doctor already has an appointment at that time.") := by
  refine ⟨by decide, by decide, by decide, by decide⟩

end SchedSys

namespace SchedSys

open DatabaseManager

/-- Witness for C3 at a concrete reachable state with two booked
appointments for the same doctor. -/
theorem c3_no_double_booking_witness :
    (⟨1, 1, 1, "2030-01-07T10:00:00", "booked", "2020-01-01T00:00:00"⟩ : ApptRow) ∈
      dbAliceBob.appts ∧
    (⟨2, 2, 1, "2030-01-07T10:30:00", "booked", "2020-01-01T00:00:00"⟩ : ApptRow) ∈
      dbAliceBob.appts ∧
    ("2030-01-07T10:00:00" : String) ≠ "2030-01-07T10:30:00" := by
  refine ⟨by decide, by decide, ?_⟩
  exact c3_no_double_booking reachable_dbAliceBob
    ⟨1, 1, 1, "2030-01-07T10:00:00", "booked", "2020-01-01T00:00:00"⟩ (by decide)
    ⟨2, 2, 1, "2030-01-07T10:30:00", "booked", "2020-01-01T00:00:00"⟩ (by decide)
    (by decide) rfl rfl rfl

/-- Witness for C7 at a concrete state: cancelling appointment 1 twice, and
cancelling the absent id 99. -/
theorem c7_cancel_idempotent_witness :
    (Scheduler.cancel false 1 dbAlice).1 = .ok () ∧
    (Scheduler.cancel false 1 (Scheduler.cancel false 1 dbAlice).2).2 =
      (Scheduler.cancel false 1 dbAlice).2 ∧
    (Scheduler.cancel false 99 dbAlice).2 = dbAlice :=
  ⟨(c7_cancel_idempotent 1 dbAlice).1, (c7_cancel_idempotent 1 dbAlice).2.2.1,
   (c7_cancel_idempotent 99 dbAlice).2.2.2.2 (by decide)⟩

/-- Witness for C10: rescheduling the absent id 99 to a valid future slot
returns successfully and leaves the concrete state unchanged. -/
theorem c10_reschedule_missing_id_witness :
    Scheduler.reschedule false 99 "2030-01-07" "11:00" nowEarly dbAlice =
      (.ok (), dbAlice) :=
  c10_reschedule_missing_id 99 "2030-01-07" "11:00" nowEarly dbAlice
    ⟨2030, 1, 7, 11, 0, 0⟩ (by decide) (by decide) (by decide)

end SchedSys

namespace SchedSys

open DatabaseManager

/-! ### Idempotence of `str.strip()` -/

theorem dropWhile_idem (p : Char → Bool) (l : List Char) :
    List.dropWhile p (List.dropWhile p l) = List.dropWhile p l := by
  induction l with
  | nil => rfl
  | cons a as ih =>
    by_cases h : p a
    · rw [List.dropWhile_cons_of_pos h]
      exact ih
    · rw [List.dropWhile_cons_of_neg h, List.dropWhile_cons_of_neg h]

theorem front_stripped_prefix {p : Char → Bool} {l m : List Char}
    (h : l.dropWhile p = l) (hm : m <+: l) : m.dropWhile p = m := by
  cases m with
  | nil => rfl
  | cons a as =>
    cases l with
    | nil =>
      have := hm.length_le
      simp at this
    | cons b bs =>
      obtain ⟨hab, _⟩ := List.cons_prefix_cons.mp hm
      subst hab
      have hpb : ¬ p a = true := by
        intro hp
        rw [List.dropWhile_cons_of_pos hp] at h
        have h1 := congrArg List.length h
        have h2 := (@List.dropWhile_suffix Char bs p).length_le
        simp at h1
        omega
      rw [List.dropWhile_cons_of_neg hpb]

theorem pyStrip_idem (s : String) : pyStrip (pyStrip s) = pyStrip s := by
  unfold pyStrip
  have hA : (s.data.dropWhile isPySpace).dropWhile isPySpace =
      s.data.dropWhile isPySpace := dropWhile_idem _ _
  have hBpre : (((s.data.dropWhile isPySpace).reverse.dropWhile isPySpace).reverse) <+:
      s.data.dropWhile isPySpace := by
    have h1 := @List.dropWhile_suffix Char (s.data.dropWhile isPySpace).reverse isPySpace
    have h2 := List.reverse_prefix.mpr h1
    rwa [List.reverse_reverse] at h2
  have hBfront : (((s.data.dropWhile isPySpace).reverse.dropWhile isPySpace).reverse).dropWhile
      isPySpace = ((s.data.dropWhile isPySpace).reverse.dropWhile isPySpace).reverse :=
    front_stripped_prefix hA hBpre
  simp only [String.data]
  rw [hBfront]
  rw [List.reverse_reverse]
  rw [dropWhile_idem]

end SchedSys

namespace SchedSys

open DatabaseManager

/-- C4 counterexample: with a booked appointment for (Dr. Smith,
2030-01-07 10:00) in the store, a second booking for the same doctor and
slot by the previously unknown patient "Carol" does fail with Conflict,
but the store is NOT left unchanged: a patient row for "Carol" has been
created before the conflict check. -/
theorem c4_store_changed :
    (Scheduler.book_appointment false "Carol" "Dr. Smith" "2030-01-07" "10:00"
        nowEarly dbAlice).1 =
      .error (.schedulingError "Doctor already booked at that time.") ∧
    (Scheduler.book_appointment false "Carol" "Dr. Smith" "2030-01-07" "10:00"
        nowEarly dbAlice).2 ≠ dbAlice ∧
    (Scheduler.book_appointment false "Carol" "Dr. Smith" "2030-01-07" "10:00"
        nowEarly dbAlice).2.patients = [⟨1, "Alice"⟩, ⟨2, "Carol"⟩] :=
  ⟨by decide, by decide, by decide⟩

/-- C4 (amended): whenever the store holds a `booked` appointment for the
named doctor at the requested slot, `bookAppointment` fails with the
Conflict error for any patient, and the appointments and doctors tables are
unchanged — but the patients table may have gained a row (the failed call's
get-or-create side effect). -/
theorem c4_conflict_rejection {db : DB} {drow : PersonRow} {A : ApptRow}
    {pn dn ds ts : String} {now dt : DateTime}
    (hpn : pn ≠ "") (hdn : dn ≠ "")
    (hstripP : pyStrip pn ≠ "") (hstripD : pyStrip dn ≠ "")
    (hparse : Scheduler.parse_datetime ds ts = .ok dt)
    (hvalid : Scheduler.validate_slot_and_business_hours dt now = .ok ())
    (hdoc : db.doctors.find? (fun d => d.name == pyStrip dn) = some drow)
    (hA : A ∈ db.appts) (hAst : A.status = "booked")
    (hAdoc : A.doctorId = drow.id) (hAslot : A.dtText = fmtISO dt) :
    (Scheduler.book_appointment false pn dn ds ts now db).1 =
      .error (.schedulingError "Doctor already booked at that time.") ∧
    (Scheduler.book_appointment false pn dn ds ts now db).2.appts = db.appts ∧
    (Scheduler.book_appointment false pn dn ds ts now db).2.doctors = db.doctors := by
  obtain ⟨pid, db1, hgoc⟩ :=
    @goc_patient_false_ok (pyStrip pn) (by rwa [pyStrip_idem]) db
  have hsnd : db1 = (get_or_create_patient false (pyStrip pn) db).2 := by rw [hgoc]
  have hD : db1.doctors = db.doctors := by
    rw [hsnd]
    exact (goc_patient_doctors false (pyStrip pn) db).1
  have hA1 : db1.appts = db.appts := by
    rw [hsnd]
    exact (goc_patient_doctors false (pyStrip pn) db).2.1
  have hgod : get_or_create_doctor false (pyStrip dn) db1 = (.ok drow.id, db1) := by
    unfold get_or_create_doctor
    rw [if_neg (by simp), if_neg (by rwa [pyStrip_idem]), pyStrip_idem, hD, hdoc]
  have hany : (db1.appts.any fun a =>
      a.doctorId == drow.id && a.dtText == fmtISO dt && a.status == "booked") = true := by
    rw [hA1]
    refine List.any_eq_true.mpr ⟨A, hA, ?_⟩
    simp [hAdoc, hAslot, hAst]
  have hmain : Scheduler.book_appointment false pn dn ds ts now db =
      (.error (.schedulingError "Doctor already booked at that time."), db1) := by
    unfold Scheduler.book_appointment
    rw [if_neg (by simp [hpn, hdn])]
    split
    · rename_i e heq
      rw [hparse] at heq
      exact absurd heq (by simp)
    · rename_i dt0 heq
      rw [hparse] at heq
      injection heq with heq
      subst heq
      split
      · rename_i e heq
        rw [hvalid] at heq
        exact absurd heq (by simp)
      · split
        · rename_i m db1a heq
          rw [hgoc] at heq
          exact absurd heq (by simp)
        · rename_i e db1a hno heq
          rw [hgoc] at heq
          exact absurd heq (by simp)
        · rename_i pid0 db1a heq
          rw [hgoc] at heq
          simp only [Prod.mk.injEq, Except.ok.injEq] at heq
          obtain ⟨hp1, hp2⟩ := heq
          subst hp1
          subst hp2
          split
          · rename_i m db2a heq
            rw [hgod] at heq
            exact absurd heq (by simp)
          · rename_i e db2a hno heq
            rw [hgod] at heq
            exact absurd heq (by simp)
          · rename_i did0 db2a heq
            rw [hgod] at heq
            simp only [Prod.mk.injEq, Except.ok.injEq] at heq
            obtain ⟨hd1, hd2⟩ := heq
            subst hd1
            subst hd2
            split
            · rename_i e db3a heq
              rw [check_conflict_false] at heq
              exact absurd heq (by simp)
            · rename_i db3a heq
              rw [check_conflict_false] at heq
              simp only [Prod.mk.injEq, Except.ok.injEq] at heq
              rw [heq.2]
            · rename_i db3a heq
              rw [check_conflict_false] at heq
              simp only [Prod.mk.injEq, Except.ok.injEq] at heq
              rw [hany] at heq
              exact absurd heq.1 (by simp)
  rw [hmain]
  exact ⟨rfl, hA1, hD⟩

/-- Witness for the amended C4 at the concrete scenario state. -/
theorem c4_conflict_rejection_witness :
    (Scheduler.book_appointment false "Carol" "Dr. Smith" "2030-01-07" "10:00"
        nowEarly dbAlice).1 =
      .error (.schedulingError "Doctor already booked at that time.") ∧
    (Scheduler.book_appointment false "Carol" "Dr. Smith" "2030-01-07" "10:00"
        nowEarly dbAlice).2.appts = dbAlice.appts ∧
    (Scheduler.book_appointment false "Carol" "Dr. Smith" "2030-01-07" "10:00"
        nowEarly dbAlice).2.doctors = dbAlice.doctors :=
  c4_conflict_rejection (by decide) (by decide) (by decide) (by decide)
    (by decide : Scheduler.parse_datetime "2030-01-07" "10:00" =
      .ok ⟨2030, 1, 7, 10, 0, 0⟩)
    (by decide : Scheduler.validate_slot_and_business_hours ⟨2030, 1, 7, 10, 0, 0⟩
      nowEarly = .ok ())
    (by decide : dbAlice.doctors.find? (fun d => d.name == pyStrip "Dr. Smith") =
      some ⟨1, "Dr. Smith"⟩)
    (by decide : (⟨1, 1, 1, "2030-01-07T10:00:00", "booked",
      "2020-01-01T00:00:00"⟩ : ApptRow) ∈ dbAlice.appts)
    rfl rfl (by decide)

end SchedSys

namespace SchedSys

open DatabaseManager

theorem IsSchedErr.exists_msg {e : PyErr} (h : IsSchedErr e) :
    ∃ m, e = .schedulingError m := by
  cases e
  case schedulingError m => exact ⟨m, rfl⟩
  all_goals exact h.elim

/-- C6 counterexample: booking with a whitespace-only doctor name (empty
after trimming) and a fresh patient name fails as claimed, but a patient
record IS created before the failure, contradicting "no patient record is
created". -/
theorem c6_patient_created_on_failure :
    pyStrip " " = "" ∧
    (Scheduler.book_appointment false "Alice" " " "2030-01-07" "10:00"
        nowEarly DB.empty).1 =
      .error (.schedulingError
        "Database error while finding/creating patient or doctor: Doctor name cannot be empty.") ∧
    (Scheduler.book_appointment false "Alice" " " "2030-01-07" "10:00"
        nowEarly DB.empty).2.patients = [⟨1, "Alice"⟩] :=
  ⟨by decide, by decide, by decide⟩

/-- C6 (amended): when the patient or doctor name is empty after trimming,
`bookAppointment` fails with a `SchedulingError` and creates no appointment
and no doctor record; when the patient name is the empty-trimmed one the
store is entirely unchanged, but when only the doctor name is empty after
trimming a patient record may first be created. -/
theorem c6_empty_name_rejection {pn dn ds ts : String} {now : DateTime} {db : DB}
    (h : pyStrip pn = "" ∨ pyStrip dn = "") :
    (∃ m, (Scheduler.book_appointment false pn dn ds ts now db).1 =
      .error (.schedulingError m)) ∧
    (Scheduler.book_appointment false pn dn ds ts now db).2.appts = db.appts ∧
    (Scheduler.book_appointment false pn dn ds ts now db).2.doctors = db.doctors ∧
    (pyStrip pn = "" → (Scheduler.book_appointment false pn dn ds ts now db).2 = db) := by
  by_cases hpn0 : pn = ""
  · have hmain : Scheduler.book_appointment false pn dn ds ts now db =
        (.error (.schedulingError "Patient and Doctor names must be provided."), db) := by
      unfold Scheduler.book_appointment
      rw [if_pos (by simp [hpn0])]
    rw [hmain]
    exact ⟨⟨_, rfl⟩, rfl, rfl, fun _ => rfl⟩
  · by_cases hdn0 : dn = ""
    · have hmain : Scheduler.book_appointment false pn dn ds ts now db =
          (.error (.schedulingError "Patient and Doctor names must be provided."), db) := by
        unfold Scheduler.book_appointment
        rw [if_pos (by simp [hdn0])]
      rw [hmain]
      exact ⟨⟨_, rfl⟩, rfl, rfl, fun _ => rfl⟩
    · rcases hp : Scheduler.parse_datetime ds ts with e | dt
      · have hmain : Scheduler.book_appointment false pn dn ds ts now db =
            (.error e, db) := by
          unfold Scheduler.book_appointment
          rw [if_neg (by simp [hpn0, hdn0])]
          split
          · rename_i e0 heq
            rw [hp] at heq
            simp only [Except.error.injEq] at heq
            rw [heq]
          · rename_i dt0 heq
            rw [hp] at heq
            exact absurd heq (by simp)
        rw [hmain]
        obtain ⟨m, hm⟩ := (parse_datetime_err hp).exists_msg
        exact ⟨⟨m, by rw [hm]⟩, rfl, rfl, fun _ => rfl⟩
      · rcases hv : Scheduler.validate_slot_and_business_hours dt now with e | u
        · have hmain : Scheduler.book_appointment false pn dn ds ts now db =
              (.error e, db) := by
            unfold Scheduler.book_appointment
            rw [if_neg (by simp [hpn0, hdn0])]
            split
            · rename_i e0 heq
              rw [hp] at heq
              exact absurd heq (by simp)
            · rename_i dt0 heq
              rw [hp] at heq
              injection heq with heq
              subst heq
              split
              · rename_i e0 heq
                rw [hv] at heq
                simp only [Except.error.injEq] at heq
                rw [heq]
              · rename_i heq
                rw [hv] at heq
                exact absurd heq (by simp)
          rw [hmain]
          obtain ⟨m, hm⟩ := (validate_err hv).exists_msg
          exact ⟨⟨m, by rw [hm]⟩, rfl, rfl, fun _ => rfl⟩
        · by_cases hsp : pyStrip pn = ""
          · have hgocp := @goc_patient_false_of_empty (pyStrip pn)
              (by rwa [pyStrip_idem]) db
            have hmain : Scheduler.book_appointment false pn dn ds ts now db =
                (.error (.schedulingError
                  ("Database error while finding/creating patient or doctor: " ++
                    "Patient name cannot be empty.")), db) := by
              unfold Scheduler.book_appointment
              rw [if_neg (by simp [hpn0, hdn0])]
              split
              · rename_i e0 heq
                rw [hp] at heq
                exact absurd heq (by simp)
              · rename_i dt0 heq
                rw [hp] at heq
                injection heq with heq
                subst heq
                split
                · rename_i e0 heq
                  rw [hv] at heq
                  exact absurd heq (by simp)
                · split
                  · rename_i m db1a heq
                    rw [hgocp] at heq
                    simp only [Prod.mk.injEq, Except.error.injEq,
                      PyErr.databaseError.injEq] at heq
                    rw [← heq.1, heq.2]
                  · rename_i e0 db1a hno heq
                    rw [hgocp] at heq
                    simp only [Prod.mk.injEq, Except.error.injEq] at heq
                    exact ((hno _ heq.1.symm)).elim
                  · rename_i pid0 db1a heq
                    rw [hgocp] at heq
                    exact absurd heq (by simp)
            rw [hmain]
            exact ⟨⟨_, rfl⟩, rfl, rfl, fun _ => rfl⟩
          · have hsd : pyStrip dn = "" := h.resolve_left hsp
            obtain ⟨pid, db1, hgoc⟩ :=
              @goc_patient_false_ok (pyStrip pn) (by rwa [pyStrip_idem]) db
            have hsnd : db1 = (get_or_create_patient false (pyStrip pn) db).2 := by
              rw [hgoc]
            have hD : db1.doctors = db.doctors := by
              rw [hsnd]
              exact (goc_patient_doctors false (pyStrip pn) db).1
            have hA1 : db1.appts = db.appts := by
              rw [hsnd]
              exact (goc_patient_doctors false (pyStrip pn) db).2.1
            have hgocd := @goc_doctor_false_of_empty (pyStrip dn)
              (by rwa [pyStrip_idem]) db1
            have hmain : Scheduler.book_appointment false pn dn ds ts now db =
                (.error (.schedulingError
                  ("Database error while finding/creating patient or doctor: " ++
                    "Doctor name cannot be empty.")), db1) := by
              unfold Scheduler.book_appointment
              rw [if_neg (by simp [hpn0, hdn0])]
              split
              · rename_i e0 heq
                rw [hp] at heq
                exact absurd heq (by simp)
              · rename_i dt0 heq
                rw [hp] at heq
                injection heq with heq
                subst heq
                split
                · rename_i e0 heq
                  rw [hv] at heq
                  exact absurd heq (by simp)
                · split
                  · rename_i m db1a heq
                    rw [hgoc] at heq
                    exact absurd heq (by simp)
                  · rename_i e0 db1a hno heq
                    rw [hgoc] at heq
                    exact absurd heq (by simp)
                  · rename_i pid0 db1a heq
                    rw [hgoc] at heq
                    simp only [Prod.mk.injEq, Except.ok.injEq] at heq
                    obtain ⟨hp1, hp2⟩ := heq
                    subst hp1
                    subst hp2
                    split
                    · rename_i m db2a heq
                      rw [hgocd] at heq
                      simp only [Prod.mk.injEq, Except.error.injEq,
                        PyErr.databaseError.injEq] at heq
                      rw [← heq.1, heq.2]
                    · rename_i e0 db2a hno heq
                      rw [hgocd] at heq
                      simp only [Prod.mk.injEq, Except.error.injEq] at heq
                      exact ((hno _ heq.1.symm)).elim
                    · rename_i did0 db2a heq
                      rw [hgocd] at heq
                      exact absurd heq (by simp)
            rw [hmain]
            exact ⟨⟨_, rfl⟩, hA1, hD, fun hc => absurd hc hsp⟩

/-- Witness for the amended C6 at concrete inputs: a whitespace-only doctor
name, and separately a whitespace-only patient name. -/
theorem c6_empty_name_rejection_witness :
    ((∃ m, (Scheduler.book_appointment false "Alice" " " "2030-01-07" "10:00"
      nowEarly DB.empty).1 = .error (.schedulingError m)) ∧
     (Scheduler.book_appointment false "Alice" " " "2030-01-07" "10:00"
       nowEarly DB.empty).2.appts = DB.empty.appts ∧
     (Scheduler.book_appointment false "Alice" " " "2030-01-07" "10:00"
       nowEarly DB.empty).2.doctors = DB.empty.doctors) ∧
    (Scheduler.book_appointment false " " "Dr. Smith" "2030-01-07" "10:00"
      nowEarly DB.empty).2 = DB.empty := by
  have h1 : (∃ m, (Scheduler.book_appointment false "Alice" " " "2030-01-07" "10:00"
        nowEarly DB.empty).1 = .error (.schedulingError m)) ∧
      (Scheduler.book_appointment false "Alice" " " "2030-01-07" "10:00"
        nowEarly DB.empty).2.appts = DB.empty.appts ∧
      (Scheduler.book_appointment false "Alice" " " "2030-01-07" "10:00"
        nowEarly DB.empty).2.doctors = DB.empty.doctors ∧
      (pyStrip "Alice" = "" → (Scheduler.book_appointment false "Alice" " "
        "2030-01-07" "10:00" nowEarly DB.empty).2 = DB.empty) :=
    c6_empty_name_rejection (Or.inr (by decide))
  have h2 : (∃ m, (Scheduler.book_appointment false " " "Dr. Smith" "2030-01-07" "10:00"
        nowEarly DB.empty).1 = .error (.schedulingError m)) ∧
      (Scheduler.book_appointment false " " "Dr. Smith" "2030-01-07" "10:00"
        nowEarly DB.empty).2.appts = DB.empty.appts ∧
      (Scheduler.book_appointment false " " "Dr. Smith" "2030-01-07" "10:00"
        nowEarly DB.empty).2.doctors = DB.empty.doctors ∧
      (pyStrip " " = "" → (Scheduler.book_appointment false " " "Dr. Smith"
        "2030-01-07" "10:00" nowEarly DB.empty).2 = DB.empty) :=
    c6_empty_name_rejection (Or.inl (by decide))
  exact ⟨⟨h1.1, h1.2.1, h1.2.2.1⟩, h2.2.2.2 (by decide)⟩

end SchedSys

namespace SchedSys

open DatabaseManager

/-- C8: on every reachable state, `getAppointments(limit, doctorNameFilter)`
returns exactly the `booked` appointments (restricted to an exact doctor
name match when a filter is given), joined with patient and doctor names,
sorted ascending by slot start, and with at most `limit` rows. -/
theorem c8_get_appointments {db : DB} (hr : Reachable db) (limit : Int)
    (dn : Option String) (hl : 0 ≤ limit) :
    ∃ rows, Scheduler.get_appointments false limit dn db = .ok rows ∧
      GetApptsSpec db limit dn rows := by
  have hwf := reachable_wf hr
  obtain ⟨l, heq, hsound, hpair, hlen, hcomp⟩ := get_appointments_spec hwf limit dn
  refine ⟨l.map rowOutTotal, heq, ?_, ?_, ?_, ?_⟩
  · intro r hr2
    rcases List.mem_map.mp hr2 with ⟨j, hj, rfl⟩
    obtain ⟨hjsql, hname⟩ := hsound j hj
    obtain ⟨⟨a, ha, hjr⟩, hst⟩ := mem_sqlRows.mp hjsql
    obtain ⟨hje, ⟨p, hp, hpid, hpn⟩, ⟨d, hd, hdid, hdn⟩⟩ := joinRow_some hjr
    obtain ⟨u, hub, hup, huf⟩ := (hwf.canon a ha).1.parse
    refine ⟨a, ha, by rw [← hje]; exact hst, by rw [← hje]; rfl, by rw [← hje]; rfl, ?_,
      ⟨p, hp, hpid, hpn⟩, ⟨d, hd, hdid, hdn⟩, hname⟩
    show fmtISO ((parseISO j.appt.dtText).getD dtDefault) = a.dtText
    rw [hje, hup]
    exact huf
  · rw [List.pairwise_map]
    refine hpair.imp_of_mem ?_
    intro j1 j2 hj1 hj2 hle
    obtain ⟨hjsql1, _⟩ := hsound j1 hj1
    obtain ⟨hjsql2, _⟩ := hsound j2 hj2
    obtain ⟨u1, hub1, hup1, huf1⟩ :=
      (hwf.canon j1.appt (sqlRows_appt_mem hjsql1).1).1.parse
    obtain ⟨u2, hub2, hup2, huf2⟩ :=
      (hwf.canon j2.appt (sqlRows_appt_mem hjsql2).1).1.parse
    show DateTime.le ((parseISO j1.appt.dtText).getD dtDefault)
      ((parseISO j2.appt.dtText).getD dtDefault) = true
    rw [hup1, hup2]
    show DateTime.le u1 u2 = true
    rw [← textLe_fmtISO u1 u2 hub1.widthOK hub2.widthOK, huf1, huf2]
    exact hle
  · rw [List.length_map]
    exact hlen hl
  · intro hcount a ha hst hdfilter
    obtain ⟨p, hp, hpid⟩ := hwf.refsP a ha
    obtain ⟨d, hd, hdid⟩ := hwf.refsD a ha
    have hjr := joinRow_total hwf.patNodup hwf.docNodup hp hpid hd hdid
    have hjsql : (⟨a, p.name, d.name⟩ : JoinedRow) ∈ sqlRows db :=
      mem_sqlRows.mpr ⟨⟨a, ha, hjr⟩, hst⟩
    have hname : ∀ n, dn = some n → n ≠ "" →
        (⟨a, p.name, d.name⟩ : JoinedRow).dname = n := by
      intro n hn hne
      obtain ⟨d2, hd2, hd2id, hd2n⟩ := hdfilter n hn hne
      have : d2 = d := person_eq_of_id_eq hwf.docNodup hd2 hd (by rw [hd2id, hdid])
      show d.name = n
      rw [← this]
      exact hd2n
    have hjl := hcomp hcount _ hjsql hname
    obtain ⟨u, hub, hup, huf⟩ := (hwf.canon a ha).1.parse
    refine ⟨rowOutTotal ⟨a, p.name, d.name⟩, List.mem_map_of_mem _ hjl, rfl, ?_⟩
    show fmtISO ((parseISO a.dtText).getD dtDefault) = a.dtText
    rw [hup]
    exact huf

/-- Witness for C8 at the concrete one-appointment reachable state. -/
theorem c8_get_appointments_witness :
    (0 : Int) ≤ 100 ∧
    ∃ rows, Scheduler.get_appointments false 100 none dbAlice = .ok rows ∧
      GetApptsSpec dbAlice 100 none rows :=
  ⟨by decide, c8_get_appointments reachable_dbAlice 100 none (by decide)⟩

/-- C9: a successful booking followed by a listing with a sufficient limit
returns an appointment whose slot start equals the parsed submitted date
and time (the stored text round-trips to the same datetime). -/
theorem c9_round_trip {db db4 : DB} {pn dn ds ts : String} {now dt : DateTime}
    {i : Nat} (hr : Reachable db) (hnow : Bounded now)
    (hparse : Scheduler.parse_datetime ds ts = .ok dt)
    (hbook : Scheduler.book_appointment false pn dn ds ts now db = (.ok i, db4))
    (limit : Int)
    (hl : (db4.appts.filter (fun a => a.status == "booked")).length ≤ limit.toNat) :
    ∃ rows, Scheduler.get_appointments false limit none db4 = .ok rows ∧
      ∃ r ∈ rows, r.id = i ∧ r.appointment_datetime = dt := by
  have hr4 : Reachable db4 := by
    have h2 := Reachable.book db false pn dn ds ts now hr hnow
    rw [hbook] at h2
    exact h2
  have hwf4 := reachable_wf hr4
  obtain ⟨a, ha, haid, hatext, hast, hacr⟩ := book_ok_row hparse hbook
  obtain ⟨l, heq, hsound, hpair, hlen, hcomp⟩ := get_appointments_spec hwf4 limit none
  obtain ⟨p, hp, hpid⟩ := hwf4.refsP a ha
  obtain ⟨d, hd, hdid⟩ := hwf4.refsD a ha
  have hjr := joinRow_total hwf4.patNodup hwf4.docNodup hp hpid hd hdid
  have hjsql : (⟨a, p.name, d.name⟩ : JoinedRow) ∈ sqlRows db4 :=
    mem_sqlRows.mpr ⟨⟨a, ha, hjr⟩, hast⟩
  have hjl := hcomp hl _ hjsql (fun n hn hne => nomatch hn)
  refine ⟨l.map rowOutTotal, heq,
    rowOutTotal ⟨a, p.name, d.name⟩, List.mem_map_of_mem _ hjl, haid, ?_⟩
  show (parseISO a.dtText).getD dtDefault = dt
  rw [hatext, parseISO_fmtISO dt (parse_datetime_bounded hparse)]
  rfl

/-- Witness for C9 at the concrete scenario: booking Bob at 10:30 and
listing returns an appointment with exactly that slot. -/
theorem c9_round_trip_witness :
    ∃ rows, Scheduler.get_appointments false 100 none dbAliceBob = .ok rows ∧
      ∃ r ∈ rows, r.id = 2 ∧ r.appointment_datetime = ⟨2030, 1, 7, 10, 30, 0⟩ :=
  c9_round_trip reachable_dbAlice (by decide)
    (by decide : Scheduler.parse_datetime "2030-01-07" "10:30" =
      .ok ⟨2030, 1, 7, 10, 30, 0⟩)
    (by decide : Scheduler.book_appointment false "Bob" "Dr. Smith" "2030-01-07"
      "10:30" nowEarly dbAlice = (.ok 2, dbAliceBob))
    100 (by decide)

end SchedSys

namespace SchedSys

open DatabaseManager

/-- C2 counterexample: when the underlying store itself fails, `cancel`
propagates the raw sqlite error to its caller untranslated — it is not a
`SchedulingError`, so the engine's errors are not confined to the three
tagged kinds. -/
theorem c2_raw_error_escape :
    (Scheduler.cancel true 1 DB.empty).1 = .error .operationalError ∧
    ¬ IsSchedErr PyErr.operationalError :=
  ⟨rfl, fun h => h⟩

/-- C2 (amended): with the storage engine healthy, every error raised by
`bookAppointment` or `reschedule` is the single untagged `SchedulingError`
(distinguished only by its message string), `cancel` and `getAppointments`
raise nothing at all on a reachable state; but when the storage engine
fails, a raw sqlite error escapes (here shown for `cancel`). -/
theorem c2_error_taxonomy {db : DB} (hr : Reachable db) :
    (∀ pn dn ds ts now e db2,
      Scheduler.book_appointment false pn dn ds ts now db = (.error e, db2) →
        IsSchedErr e) ∧
    (∀ id2 ds ts now e db2,
      Scheduler.reschedule false id2 ds ts now db = (.error e, db2) →
        IsSchedErr e) ∧
    (∀ id2, (Scheduler.cancel false id2 db).1 = .ok ()) ∧
    (∀ limit dn, ∃ rows, Scheduler.get_appointments false limit dn db = .ok rows) ∧
    (∀ id2, (Scheduler.cancel true id2 db).1 = .error .operationalError) := by
  refine ⟨?_, ?_, fun id2 => rfl, ?_, fun id2 => rfl⟩
  · intro pn dn ds ts now e db2 h
    unfold Scheduler.book_appointment at h
    split_ifs at h
    case pos =>
      simp only [Prod.mk.injEq, Except.error.injEq] at h
      rw [← h.1]
      trivial
    case neg =>
      split at h
      · rename_i e0 heq
        simp only [Prod.mk.injEq, Except.error.injEq] at h
        rw [← h.1]
        exact parse_datetime_err heq
      · split at h
        · rename_i e0 heq
          simp only [Prod.mk.injEq, Except.error.injEq] at h
          rw [← h.1]
          exact validate_err heq
        · split at h
          · simp only [Prod.mk.injEq, Except.error.injEq] at h
            rw [← h.1]
            trivial
          · rename_i e0 db1 hno heq
            exact ((hno _ (goc_patient_false_err heq).1)).elim
          · split at h
            · simp only [Prod.mk.injEq, Except.error.injEq] at h
              rw [← h.1]
              trivial
            · rename_i e0 db2a hno heq
              exact ((hno _ (goc_doctor_false_err heq).1)).elim
            · split at h
              · rename_i e0 db3 heq
                rw [check_conflict_false] at heq
                exact absurd heq (by simp)
              · simp only [Prod.mk.injEq, Except.error.injEq] at h
                rw [← h.1]
                trivial
              · split at h
                · exact absurd h (by simp)
                · simp only [Prod.mk.injEq, Except.error.injEq] at h
                  rw [← h.1]
                  trivial
                · rename_i e0 db4 hno heq
                  exact ((hno _ (add_false_err heq).1)).elim
  · intro id2 ds ts now e db2 h
    unfold Scheduler.reschedule at h
    split at h
    · rename_i e0 heq
      simp only [Prod.mk.injEq, Except.error.injEq] at h
      rw [← h.1]
      exact parse_datetime_err heq
    · split at h
      · rename_i e0 heq
        simp only [Prod.mk.injEq, Except.error.injEq] at h
        rw [← h.1]
        exact validate_err heq
      · split at h
        · exact absurd h (by simp)
        · simp only [Prod.mk.injEq, Except.error.injEq] at h
          rw [← h.1]
          trivial
        · rename_i e0 db1 hno heq
          exact ((hno _ (reschedule_false_err heq).1)).elim
  · intro limit dn
    obtain ⟨l, heq, _⟩ := get_appointments_spec (reachable_wf hr) limit dn
    exact ⟨_, heq⟩

/-- Witness for the amended C2 at the concrete empty state. -/
theorem c2_error_taxonomy_witness :
    (∀ id2, (Scheduler.cancel false id2 DB.empty).1 = .ok ()) ∧
    (∃ rows, Scheduler.get_appointments false 100 none DB.empty = .ok rows) ∧
    (Scheduler.cancel true 1 DB.empty).1 = .error .operationalError := by
  have h := c2_error_taxonomy Reachable.empty
  exact ⟨h.2.2.1, h.2.2.2.1 100 none, h.2.2.2.2 1⟩

end SchedSys
